import Mathlib

/-!
Verification of the tau-dashboard synchronization core (backend/) against its
natural-language specification.  The Python source is shallowly embedded:
pure functions become Lean functions, database-touching code becomes explicit
state passing over a `Db` record, and the concurrent get-or-create pattern
becomes a small-step interleaving semantics.  Machine integers are `Nat`/`Int`
(no overflow is relevant here), floats that are only ever compared for
equality or against exact decimal constants are `ℚ`, and `datetime` values
are epoch seconds (`Int`).
-/

set_option maxRecDepth 8192

namespace TauDashboard

/-! ## Task-result classification (github_service.py 348-397) -/

/-- One entry of a `result.json` array.  In the source a trial is a JSON
object; `trial.get("reward")` yields `None` when the key is absent, and the
reward values compared against are the exact floats `1.0` and `0.0`, so the
reward is modelled as `Option ℚ`. -/
structure Trial where
  reward : Option ℚ
deriving DecidableEq

/-- The decoded `result.json` document: either a JSON array of trials or any
non-array value (the source checks `isinstance(result_json, list)`). -/
inductive ResultArtifact where
  | arr : List Trial → ResultArtifact
  | nonList : ResultArtifact
deriving DecidableEq

structure PassFailCounts where
  pass_count : Nat
  fail_count : Nat
  total_trials : Nat
deriving DecidableEq

/-- `GitHubService.calculate_pass_fail_counts` (github_service.py 348-365). -/
def calculate_pass_fail_counts : ResultArtifact → PassFailCounts
  | .nonList => ⟨0, 0, 0⟩
  | .arr trials =>
    { pass_count := trials.countP (fun tr => decide (tr.reward = some 1))
      fail_count := trials.countP (fun tr => decide (tr.reward = some 0))
      total_trials := trials.length }

/-- `GitHubService.calculate_actual_difficulty` (github_service.py 367-397),
including the unreachable `total_trials == 0` branch of the source. -/
def calculate_actual_difficulty (pass_count total_trials : Nat) : String :=
  if total_trials < 3 then "not_enough_trials"
  else if total_trials = 0 then "unclassified"
  else
    let pass_rate : ℚ := (pass_count : ℚ) / (total_trials : ℚ)
    if 0.625 ≤ pass_rate ∧ pass_rate ≤ 0.75 then "medium"
    else if 0.375 ≤ pass_rate ∧ pass_rate ≤ 0.5625 then "hard"
    else if 0.1875 ≤ pass_rate ∧ pass_rate ≤ 0.3125 then "expert"
    else "unclassified"

/-- The classification as the specification words it: fewer than 3 trials is
insufficient data, otherwise the pass rate is banded (62.5-75 percent medium,
37.5-56.25 percent hard, 18.75-31.25 percent expert) and anything outside the
bands is unclassified.  There is no zero-trials branch. -/
def actualDifficultySpec (pass_count total_trials : Nat) : String :=
  if total_trials < 3 then "not_enough_trials"
  else
    let pass_rate : ℚ := (pass_count : ℚ) / (total_trials : ℚ)
    if 0.625 ≤ pass_rate ∧ pass_rate ≤ 0.75 then "medium"
    else if 0.375 ≤ pass_rate ∧ pass_rate ≤ 0.5625 then "hard"
    else if 0.1875 ≤ pass_rate ∧ pass_rate ≤ 0.3125 then "expert"
    else "unclassified"

lemma calculate_actual_difficulty_eq_spec (p t : Nat) :
    calculate_actual_difficulty p t = actualDifficultySpec p t := by
  unfold calculate_actual_difficulty actualDifficultySpec
  by_cases h : t < 3
  · simp [h]
  · have ht : ¬ t = 0 := by omega
    simp [h, ht]

lemma trial_count_partition (l : List Trial) :
    l.countP (fun tr => decide (tr.reward = some 1))
      + l.countP (fun tr => decide (tr.reward = some 0))
      + l.countP (fun tr => !decide (tr.reward = some 1) && !decide (tr.reward = some 0))
      = l.length := by
  induction l with
  | nil => simp
  | cons tr l ih =>
    simp only [List.countP_cons, List.length_cons]
    by_cases h1 : tr.reward = some 1
    · have h0 : ¬ tr.reward = some 0 := by
        rw [h1]
        intro h
        exact one_ne_zero (Option.some.injEq _ _ ▸ h)
      simp only [h1, h0, decide_eq_true_eq]
      simp [h0]
      omega
    · by_cases h0 : tr.reward = some 0
      · simp [h1, h0]
        omega
      · simp [h1, h0]
        omega

/-- C2: the actual-difficulty classification agrees everywhere with the
banding table of the specification (fewer than 3 trials is insufficient data,
then medium for pass rates in [0.625, 0.75], hard in [0.375, 0.5625], expert
in [0.1875, 0.3125], unclassified outside the bands), and in particular
11/16 is medium, 7/16 hard, 4/16 expert, 1/2 insufficient data and 13/16
unclassified. -/
theorem actual_difficulty_banding :
    (∀ p t : Nat, calculate_actual_difficulty p t = actualDifficultySpec p t)
    ∧ calculate_actual_difficulty 11 16 = "medium"
    ∧ calculate_actual_difficulty 7 16 = "hard"
    ∧ calculate_actual_difficulty 4 16 = "expert"
    ∧ calculate_actual_difficulty 1 2 = "not_enough_trials"
    ∧ calculate_actual_difficulty 13 16 = "unclassified" :=
  ⟨calculate_actual_difficulty_eq_spec,
    by norm_num [calculate_actual_difficulty],
    by norm_num [calculate_actual_difficulty],
    by norm_num [calculate_actual_difficulty],
    by norm_num [calculate_actual_difficulty],
    by norm_num [calculate_actual_difficulty]⟩

/-- C9: on a JSON array the pass count is the number of trials with reward
exactly 1.0, the fail count the number with reward exactly 0.0 and the
total the array length; hence pass + fail never exceeds the total, with
strict inequality exactly when some trial has a missing or non-0/1 reward;
and any non-array input yields all-zero counts. -/
theorem pass_fail_counts_bounds :
    (∀ l : List Trial,
      (calculate_pass_fail_counts (.arr l)).pass_count
        = (l.filter (fun tr => decide (tr.reward = some 1))).length
      ∧ (calculate_pass_fail_counts (.arr l)).fail_count
        = (l.filter (fun tr => decide (tr.reward = some 0))).length
      ∧ (calculate_pass_fail_counts (.arr l)).total_trials = l.length)
    ∧ (∀ l : List Trial,
      (calculate_pass_fail_counts (.arr l)).pass_count
          + (calculate_pass_fail_counts (.arr l)).fail_count
        ≤ (calculate_pass_fail_counts (.arr l)).total_trials)
    ∧ (∀ l : List Trial,
      ((calculate_pass_fail_counts (.arr l)).pass_count
          + (calculate_pass_fail_counts (.arr l)).fail_count
        < (calculate_pass_fail_counts (.arr l)).total_trials)
      ↔ ∃ tr ∈ l, tr.reward ≠ some 1 ∧ tr.reward ≠ some 0)
    ∧ calculate_pass_fail_counts .nonList = ⟨0, 0, 0⟩ := by
  refine ⟨?_, ?_, ?_, rfl⟩
  · intro l
    exact ⟨(List.countP_eq_length_filter _ _), (List.countP_eq_length_filter _ _), rfl⟩
  · intro l
    have h := trial_count_partition l
    simp only [calculate_pass_fail_counts]
    omega
  · intro l
    have h := trial_count_partition l
    have hpos : (0 < l.countP (fun tr => !decide (tr.reward = some 1)
          && !decide (tr.reward = some 0)))
        ↔ ∃ tr ∈ l, tr.reward ≠ some 1 ∧ tr.reward ≠ some 0 := by
      rw [List.countP_pos_iff]
      simp
    simp only [calculate_pass_fail_counts]
    rw [← hpos]
    omega

/-- C10: the classifier is total (it always yields one of the five
classification strings) and the zero-trials branch of the source is dead:
the function coincides with `actualDifficultySpec`, which has no such
branch, because `total_trials = 0` already falls into the fewer-than-3
insufficient-data case; the pass-rate division is only reached when
`3 ≤ total_trials`, whence the divisor is positive. -/
theorem actual_difficulty_total_and_division_safe :
    (∀ p t : Nat,
      calculate_actual_difficulty p t = "not_enough_trials"
      ∨ calculate_actual_difficulty p t = "medium"
      ∨ calculate_actual_difficulty p t = "hard"
      ∨ calculate_actual_difficulty p t = "expert"
      ∨ calculate_actual_difficulty p t = "unclassified")
    ∧ (∀ p t : Nat, calculate_actual_difficulty p t = actualDifficultySpec p t)
    ∧ (∀ t : Nat, ¬ t < 3 → (0 : ℚ) < (t : ℚ)) := by
  refine ⟨?_, calculate_actual_difficulty_eq_spec, ?_⟩
  · intro p t
    unfold calculate_actual_difficulty
    by_cases h3 : t < 3
    · simp [h3]
    · by_cases h0 : t = 0
      · simp [h3, h0]
      · simp only [if_neg h3, if_neg h0]
        by_cases hm : 0.625 ≤ (p : ℚ) / (t : ℚ) ∧ (p : ℚ) / (t : ℚ) ≤ 0.75
        · simp [hm]
        · by_cases hh : 0.375 ≤ (p : ℚ) / (t : ℚ) ∧ (p : ℚ) / (t : ℚ) ≤ 0.5625
          · simp [hm, hh]
          · by_cases he : 0.1875 ≤ (p : ℚ) / (t : ℚ) ∧ (p : ℚ) / (t : ℚ) ≤ 0.3125
            · simp [hm, hh, he]
            · simp [hm, hh, he]
  · intro t ht
    have : (3 : ℚ) ≤ (t : ℚ) := by exact_mod_cast by omega
    linarith

/-! ## Sync-mode selection (sync_state.py 21-88, main.py 885-898)

The checkpoint (`SyncState.last_sync_time`) and the fallback anchors read
from the most recently synced PullRequest are epoch seconds.  Python's
`timedelta.days` is the floor of the elapsed seconds divided by 86400, i.e.
`Int.fdiv`. -/

inductive SyncMode where
  | full : SyncMode
  | incremental : Int → SyncMode
deriving DecidableEq

/-- Whole days elapsed between two instants, Python `(now - last).days`. -/
def days_since (last now : Int) : Int := (now - last).fdiv 86400

/-- `should_do_full_sync` (sync_state.py 58-88): full when no checkpoint
exists, or when the checkpoint is more than 7 whole days old. -/
def should_do_full_sync (checkpoint : Option Int) (now : Int) : Bool :=
  match checkpoint with
  | none => true
  | some t => decide (7 < days_since t now)

/-- `get_last_sync_time` (sync_state.py 21-56): the checkpoint when present,
otherwise the most recent PR `last_synced`, then its `updated_at`, then 60
days before now. -/
def get_last_sync_time (checkpoint prLastSynced prUpdatedAt : Option Int)
    (now : Int) : Int :=
  match checkpoint with
  | some t => t
  | none =>
    match prLastSynced with
    | some t => t
    | none =>
      match prUpdatedAt with
      | some t => t
      | none => now - 60 * 86400

/-- The sync decision as the API layer makes it (main.py 885-898):
`force_full or should_do_full_sync(db)` selects full, otherwise an
incremental sync anchored at `get_last_sync_time(db)`. -/
def sync_plan (forceFull : Bool) (checkpoint prLastSynced prUpdatedAt : Option Int)
    (now : Int) : SyncMode :=
  if forceFull || should_do_full_sync checkpoint now then .full
  else .incremental (get_last_sync_time checkpoint prLastSynced prUpdatedAt now)

/-- C3 counterexample: a checkpoint that is 7 days and 1 hour old is older
than the 7-day staleness threshold (608400 s elapsed, threshold 604800 s),
yet the code selects an incremental sync, because `timedelta.days` floors
the age to 7 whole days and the comparison is strict. -/
theorem sync_plan_staleness_boundary_counterexample :
    (7 * 86400 : Int) < 608400 - 0
    ∧ sync_plan false (some 0) none none 608400 = .incremental 0 := by
  constructor
  · decide
  · rfl

/-- C3 (amended): the sync-mode decision is a deterministic function of the
checkpoint and the current time; with no checkpoint it is a full sync; with
a checkpoint whose age in whole days (floor of elapsed seconds / 86400)
exceeds 7 — e.g. one exactly 8 days old — it is a full sync; otherwise
(age at most 7 whole days, e.g. 1 hour) it is an incremental sync anchored
at the checkpoint timestamp. -/
theorem sync_plan_decision :
    (∀ pls pua : Option Int, ∀ now : Int,
      sync_plan false none pls pua now = .full)
    ∧ (∀ t : Int, ∀ pls pua : Option Int, ∀ now : Int,
      7 < (now - t).fdiv 86400 → sync_plan false (some t) pls pua now = .full)
    ∧ (∀ t : Int, ∀ pls pua : Option Int, ∀ now : Int,
      (now - t).fdiv 86400 ≤ 7 →
        sync_plan false (some t) pls pua now = .incremental t)
    ∧ (∀ pls pua : Option Int, ∀ now : Int,
      sync_plan false (some (now - 8 * 86400)) pls pua now = .full)
    ∧ (∀ pls pua : Option Int, ∀ now : Int,
      sync_plan false (some (now - 3600)) pls pua now
        = .incremental (now - 3600)) := by
  refine ⟨?_, ?_, ?_, ?_, ?_⟩
  · intro pls pua now
    rfl
  · intro t pls pua now h
    simp [sync_plan, should_do_full_sync, days_since, h]
  · intro t pls pua now h
    have h2 : ¬ 7 < (now - t).fdiv 86400 := not_lt.mpr h
    simp [sync_plan, should_do_full_sync, days_since, h2, get_last_sync_time]
  · intro pls pua now
    have h : 7 < (now - (now - 8 * 86400)).fdiv 86400 := by
      have : now - (now - 8 * 86400) = 8 * 86400 := by ring
      rw [this]
      decide
    simp [sync_plan, should_do_full_sync, days_since, h]
  · intro pls pua now
    have h : ¬ 7 < (now - (now - 3600)).fdiv 86400 := by
      have : now - (now - 3600) = 3600 := by ring
      rw [this]
      decide
    simp [sync_plan, should_do_full_sync, days_since, h, get_last_sync_time]

/-- Witness for `sync_plan_decision`: a checkpoint at epoch 0 seen 8 days
later selects a full sync; one seen 1 hour later selects an incremental
sync anchored at the checkpoint. -/
theorem sync_plan_decision_witness :
    7 < ((691200 : Int) - 0).fdiv 86400
    ∧ sync_plan false (some 0) none none 691200 = .full
    ∧ ((3600 : Int) - 0).fdiv 86400 ≤ 7
    ∧ sync_plan false (some 0) none none 3600 = .incremental 0 :=
  ⟨by decide, sync_plan_decision.2.1 0 none none 691200 (by decide),
    by decide, sync_plan_decision.2.2.1 0 none none 3600 (by decide)⟩

/-! ## Title parsing (github_service.py 21-88)

The two anchored regular expressions of `GitHubService` are embedded as
specialised backtracking matchers with exactly the engine's strategy:
leftmost-shortest for the non-greedy trainer group, longest-first for the
greedy domain and digit groups, alternation in written order, optional
pieces tried present-first. -/

/-- Character class of the trainer group, Python `[a-zA-Z0-9\._-]`. -/
def isTrainerChar (c : Char) : Bool :=
  c.isAlphanum || c = '.' || c = '_' || c = '-'

/-- Character class of the domain group, Python `[\w_-]` on ASCII input. -/
def isDomainChar (c : Char) : Bool :=
  c.isAlphanum || c = '_' || c = '-'

def digitsToNat (ds : List Char) : Nat :=
  ds.foldl (fun n c => 10 * n + (c.toNat - 48)) 0

/-- Match a literal character sequence, returning the remainder. -/
def matchLit : List Char → List Char → Option (List Char)
  | [], cs => some cs
  | _ :: _, [] => none
  | l :: ls, c :: cs => if c = l then matchLit ls cs else none

/-- `(\d{10})$`. -/
def tsExactly10 (cs : List Char) : Option String :=
  if cs.length = 10 ∧ cs.all Char.isDigit then some (String.mk cs) else none

/-- `(\d{10,})$`. -/
def tsAtLeast10 (cs : List Char) : Option String :=
  if 10 ≤ cs.length ∧ cs.all Char.isDigit then some (String.mk cs) else none

/-- `(expert|hard|medium)-(\d{10})$`. -/
def matchComplexityTS (cs : List Char) : Option (String × String) :=
  match matchLit "expert-".toList cs with
  | some rest =>
    match tsExactly10 rest with
    | some ts => some ("expert", ts)
    | none => none
  | none =>
    match matchLit "hard-".toList cs with
    | some rest =>
      match tsExactly10 rest with
      | some ts => some ("hard", ts)
      | none => none
    | none =>
      match matchLit "medium-".toList cs with
      | some rest =>
        match tsExactly10 rest with
        | some ts => some ("medium", ts)
        | none => none
      | none => none

/-- `(\d+)-(expert|hard|medium)-(\d{10})$`; the digit run is maximal, and no
shorter run can succeed because the following literal is a dash. -/
def matchNumTail (cs : List Char) : Option (Nat × String × String) :=
  let ds := cs.takeWhile Char.isDigit
  let rest := cs.dropWhile Char.isDigit
  if ds.isEmpty then none
  else
    match rest with
    | '-' :: rest2 =>
      match matchComplexityTS rest2 with
      | some (cx, ts) => some (digitsToNat ds, cx, ts)
      | none => none
    | _ => none

/-- Greedy `([\w_-]+)` followed by `-` and `matchNumTail`; `acc` holds the
candidate group reversed.  Longest candidates are tried first; on failure
the matcher backs off one character at a time, and a split is only possible
at a dash. -/
def matchDomainFrom (acc : List Char) : List Char → Option (String × Nat × String × String)
  | [] => none
  | c :: rest =>
    if isDomainChar c then
      match matchDomainFrom (c :: acc) rest with
      | some r => some r
      | none =>
        if c = '-' ∧ acc ≠ [] then
          match matchNumTail rest with
          | some (n, cx, ts) => some (String.mk acc.reverse, n, cx, ts)
          | none => none
        else none
    else none

/-- Non-greedy `([a-zA-Z0-9\._-]+?)` followed by `-` and the domain matcher:
the shortest trainer that lets the remainder match wins. -/
def matchPrimaryFrom (acc : List Char) : List Char → Option (String × String × Nat × String × String)
  | [] => none
  | c :: rest =>
    if c = '-' ∧ acc ≠ [] then
      match matchDomainFrom [] rest with
      | some (d, n, cx, ts) => some (String.mk acc.reverse, d, n, cx, ts)
      | none => if isTrainerChar c then matchPrimaryFrom (c :: acc) rest else none
    else if isTrainerChar c then matchPrimaryFrom (c :: acc) rest else none

/-- `GitHubService.pr_pattern`:
`^([a-zA-Z0-9\._-]+?)-([\w_-]+)-(\d+)-(expert|hard|medium)-(\d{10})$`. -/
def matchPrimary (cs : List Char) : Option (String × String × Nat × String × String) :=
  matchPrimaryFrom [] cs

/-- Optional greedy `-?`: with-dash first, then without. -/
def matchDashOpt {α : Type} (cs : List Char) (k : List Char → Option α) : Option α :=
  match cs with
  | '-' :: rest =>
    match k rest with
    | some r => some r
    | none => k ('-' :: rest)
  | _ => k cs

/-- Optional `(expert|hard|medium)?`: alternatives in written order, then
the absent case. -/
def matchCplxOpt {α : Type} (cs : List Char) (k : Option String → List Char → Option α) : Option α :=
  (match matchLit "expert".toList cs with
   | some rest => k (some "expert") rest
   | none => none)
  <|> (match matchLit "hard".toList cs with
       | some rest => k (some "hard") rest
       | none => none)
  <|> (match matchLit "medium".toList cs with
       | some rest => k (some "medium") rest
       | none => none)
  <|> k none cs

/-- Greedy digit run for `(\d+)?` with full backtracking: longest first,
shorter on failure; the empty (absent) case is handled by `matchG3`. -/
def matchG3From {α : Type} (k : Option Nat → List Char → Option α) :
    List Char → List Char → Option α
  | acc, [] => if acc.isEmpty then none else k (some (digitsToNat acc.reverse)) []
  | acc, c :: rest =>
    if c.isDigit then
      match matchG3From k (c :: acc) rest with
      | some r => some r
      | none =>
        if acc.isEmpty then none
        else k (some (digitsToNat acc.reverse)) (c :: rest)
    else if acc.isEmpty then none
    else k (some (digitsToNat acc.reverse)) (c :: rest)

def matchG3 {α : Type} (cs : List Char) (k : Option Nat → List Char → Option α) : Option α :=
  match matchG3From k [] cs with
  | some r => some r
  | none => k none cs

/-- `(\d+)?-?(expert|hard|medium)?-?(\d{10,})$`. -/
def fallbackTail (cs : List Char) : Option (Option Nat × Option String × String) :=
  matchG3 cs (fun g3 cs1 =>
    matchDashOpt cs1 (fun cs2 =>
      matchCplxOpt cs2 (fun g4 cs3 =>
        matchDashOpt cs3 (fun cs4 =>
          match tsAtLeast10 cs4 with
          | some ts => some (g3, g4, ts)
          | none => none))))

/-- Greedy `([\w_-]+)` followed by `-` and `fallbackTail`. -/
def matchFbDomainFrom (acc : List Char) : List Char → Option (String × Option Nat × Option String × String)
  | [] => none
  | c :: rest =>
    if isDomainChar c then
      match matchFbDomainFrom (c :: acc) rest with
      | some r => some r
      | none =>
        if c = '-' ∧ acc ≠ [] then
          match fallbackTail rest with
          | some (g3, g4, ts) => some (String.mk acc.reverse, g3, g4, ts)
          | none => none
        else none
    else none

/-- Non-greedy trainer group of the fallback pattern. -/
def matchFallbackFrom (acc : List Char) : List Char → Option (String × String × Option Nat × Option String × String)
  | [] => none
  | c :: rest =>
    if c = '-' ∧ acc ≠ [] then
      match matchFbDomainFrom [] rest with
      | some (d, g3, g4, ts) => some (String.mk acc.reverse, d, g3, g4, ts)
      | none => if isTrainerChar c then matchFallbackFrom (c :: acc) rest else none
    else if isTrainerChar c then matchFallbackFrom (c :: acc) rest else none

/-- The backward-compatibility pattern of `parse_pr_title`:
`^([a-zA-Z0-9\._-]+?)-([\w_-]+)-(\d+)?-?(expert|hard|medium)?-?(\d{10,})$`. -/
def matchFallback (cs : List Char) : Option (String × String × Option Nat × Option String × String) :=
  matchFallbackFrom [] cs

/-- The fallback list `Settings.allowed_domains` (config.py 61-76), the
known-domain set `GitHubService.valid_domains` is initialised from. -/
def valid_domains : List String :=
  ["enterprise_wiki", "finance", "fund_finance", "hr_experts", "hr_management",
   "hr_payroll", "hr_talent_management", "incident_management",
   "incident_management_redos", "incident_management_technical",
   "it_incident_management", "smart_home", "smart_home_alexa", "wiki_confluence"]

/-- The suffix-only fragments the repair step recognises
(github_service.py 56). -/
def suspicious_fragments : List String :=
  ["expert", "experts", "hard", "medium", "management", "payroll", "finance",
   "wiki", "home", "incident"]

def hyphenToUnderscore (s : String) : String :=
  String.mk (s.data.map (fun c => if c = '-' then '_' else c))

/-- Python `str.split('-')` (structural, so that it evaluates in the
kernel). -/
def splitOnDashAux : List Char → List Char → List (List Char)
  | cur, [] => [cur.reverse]
  | cur, c :: rest =>
    if c = '-' then cur.reverse :: splitOnDashAux [] rest
    else splitOnDashAux (c :: cur) rest

def splitOnDash (s : String) : List String :=
  (splitOnDashAux [] s.data).map String.mk

/-- Python `'-'.join(...)`. -/
def joinDash : List String → String
  | [] => ""
  | [p] => p
  | p :: ps => p ++ "-" ++ joinDash ps

structure ParsedTitle where
  trainer_name : String
  domain : String
  interface_num : Nat
  complexity : String
  timestamp : String
deriving DecidableEq

/-- `GitHubService.parse_pr_title` (github_service.py 35-88): primary
pattern with hyphen-to-underscore domain normalisation and the
trainer-suffix repair heuristic, then the fallback pattern with defaults. -/
def parse_pr_title (title : String) : Option ParsedTitle :=
  match matchPrimary title.toList with
  | some (tn, dom, n, cx, ts) =>
    let domNorm := hyphenToUnderscore dom
    if valid_domains.contains domNorm then
      some ⟨tn, domNorm, n, cx, ts⟩
    else if suspicious_fragments.contains dom then
      let parts := splitOnDash tn
      if 1 < parts.length then
        let pot := parts.getLastD "" ++ "_" ++ dom
        if valid_domains.contains pot then
          some ⟨joinDash parts.dropLast, pot, n, cx, ts⟩
        else some ⟨tn, dom, n, cx, ts⟩
      else some ⟨tn, dom, n, cx, ts⟩
    else some ⟨tn, dom, n, cx, ts⟩
  | none =>
    match matchFallback title.toList with
    | some (tn, dom, g3, g4, ts) =>
      some ⟨tn, dom, g3.getD 0, g4.getD "unknown", ts⟩
    | none => none

example : parse_pr_title "alex-fund-finance-3-hard-1712345678"
    = some ⟨"alex", "fund_finance", 3, "hard", "1712345678"⟩ := by decide

example : parse_pr_title "alex-dom-hard-1712345678"
    = some ⟨"alex", "dom-hard", 0, "unknown", "1712345678"⟩ := by decide

example : parse_pr_title "alex-dom-5-hard-17123456789012"
    = some ⟨"alex", "dom-5-hard", 1712, "unknown", "3456789012"⟩ := by decide

example : parse_pr_title "readme update" = none := by decide

def underscoreToHyphen (s : String) : String :=
  String.mk (s.data.map (fun c => if c = '_' then '-' else c))

/-- A well-formed task title around a given trainer and domain segment. -/
def mkTaskTitle (trainer dom : String) : String :=
  trainer ++ "-" ++ dom ++ "-3-hard-1712345678"

/-- C4: for every name in the known-domain set, a title whose domain segment
has hyphens substituted for underscores parses to the same domain as the
correctly spelled title, namely the known domain itself (hyphen-to-
underscore normalisation round-trips onto the known-domain set). -/
theorem domain_hyphen_roundtrip :
    ∀ d ∈ valid_domains,
      (parse_pr_title (mkTaskTitle "alex" (underscoreToHyphen d))).map ParsedTitle.domain
        = (parse_pr_title (mkTaskTitle "alex" d)).map ParsedTitle.domain
      ∧ (parse_pr_title (mkTaskTitle "alex" d)).map ParsedTitle.domain = some d := by
  decide

/-- Witness for `domain_hyphen_roundtrip` at the known domain
`fund_finance`: the malformed spelling `fund-finance` still parses to
`fund_finance`. -/
theorem domain_hyphen_roundtrip_witness :
    "fund_finance" ∈ valid_domains
    ∧ (parse_pr_title (mkTaskTitle "alex" (underscoreToHyphen "fund_finance"))).map
        ParsedTitle.domain = some "fund_finance" :=
  ⟨by decide,
    ((domain_hyphen_roundtrip "fund_finance" (by decide)).1.trans
      (domain_hyphen_roundtrip "fund_finance" (by decide)).2)⟩

/-! ## Check-run deduplication (github_service.py 880-940)

`sync_check_runs` walks the check runs of the head commit, keeps per check
name only the run with the latest `started_at` (ties broken by the larger
GitHub id), and persists the failure/success counts of those latest runs on
the PullRequest row. -/

structure GHCheck where
  id : Nat
  name : String
  status : Option String
  conclusion : Option String
  started_at : Option Int
  completed_at : Option Int
deriving DecidableEq

/-- Python `a or b` on optional timestamps (`started_at or completed_at`). -/
def orTime (a b : Option Int) : Option Int :=
  match a with
  | some x => some x
  | none => b

/-- One comparison of `sync_check_runs` (github_service.py 917-931): decide
whether `check` replaces the currently tracked `existing` run of the same
name. -/
def considerLatest (existing check : GHCheck) : GHCheck :=
  let existing_started := orTime existing.started_at existing.completed_at
  let new_started := orTime check.started_at check.completed_at
  match new_started, existing_started with
  | some n, some e =>
    if e < n then check
    else if n = e ∧ existing.id < check.id then check
    else existing
  | some _, none => check
  | none, _ => existing

/-- The `latest_checks` dict update, insertion-ordered. -/
def insLatest : List (String × GHCheck) → GHCheck → List (String × GHCheck)
  | [], c => [(c.name, c)]
  | (n, e) :: rest, c =>
    if n = c.name then (n, considerLatest e c) :: rest
    else (n, e) :: insLatest rest c

def latest_checks (checks : List GHCheck) : List (String × GHCheck) :=
  checks.foldl insLatest []

/-- The `(check_failures, check_passes)` pair persisted by
`sync_check_runs` (github_service.py 933-939). -/
def sync_check_run_counts (checks : List GHCheck) : Nat × Nat :=
  ((latest_checks checks).countP (fun p => decide (p.2.conclusion = some "failure")),
   (latest_checks checks).countP (fun p => decide (p.2.conclusion = some "success")))

/-- `a` started strictly before `b` in the sense of the specification:
earlier `started_at`, ties broken by the smaller id. -/
def runBefore (a b : GHCheck) : Prop :=
  a.started_at.getD 0 < b.started_at.getD 0
  ∨ (a.started_at.getD 0 = b.started_at.getD 0 ∧ a.id < b.id)

instance (a b : GHCheck) : Decidable (runBefore a b) := by
  unfold runBefore
  infer_instance

/-- `c` is the most-recent run with name `n` among `checks`. -/
def IsLatestRunFor (checks : List GHCheck) (n : String) (c : GHCheck) : Prop :=
  c ∈ checks ∧ c.name = n ∧ ∀ c2 ∈ checks, c2.name = n → c2 = c ∨ runBefore c2 c

instance (checks : List GHCheck) (n : String) (c : GHCheck) :
    Decidable (IsLatestRunFor checks n c) := by
  unfold IsLatestRunFor
  infer_instance

/-- Number of distinct check names whose most-recent run concluded with the
given conclusion — the count the specification describes. -/
def latestConclusionCount (checks : List GHCheck) (concl : String) : Nat :=
  (checks.map GHCheck.name).dedup.countP
    (fun n => decide (∃ c ∈ checks, IsLatestRunFor checks n c ∧ c.conclusion = some concl))

lemma runBefore_trans {a b c : GHCheck} (h1 : runBefore a b) (h2 : runBefore b c) :
    runBefore a c := by
  unfold runBefore at *
  rcases h1 with h1 | ⟨h1e, h1i⟩ <;> rcases h2 with h2 | ⟨h2e, h2i⟩
  · exact Or.inl (h1.trans h2)
  · exact Or.inl (h2e ▸ h1)
  · exact Or.inl (h1e ▸ h2)
  · exact Or.inr ⟨h1e.trans h2e, h1i.trans h2i⟩

lemma runBefore_total {a b : GHCheck} (hid : a.id ≠ b.id) :
    runBefore a b ∨ runBefore b a := by
  unfold runBefore
  rcases lt_trichotomy (a.started_at.getD 0) (b.started_at.getD 0) with h | h | h
  · exact Or.inl (Or.inl h)
  · rcases Nat.lt_or_ge a.id b.id with hi | hi
    · exact Or.inl (Or.inr ⟨h, hi⟩)
    · exact Or.inr (Or.inr ⟨h.symm, lt_of_le_of_ne hi (fun e => hid e.symm)⟩)
  · exact Or.inr (Or.inl h)

lemma runBefore_irrefl (a : GHCheck) : ¬ runBefore a a := by
  unfold runBefore
  intro h
  rcases h with h | ⟨_, h⟩
  · exact lt_irrefl _ h
  · exact lt_irrefl _ h

lemma considerLatest_eq {e c : GHCheck} {ev cv : Int}
    (he : e.started_at = some ev) (hc : c.started_at = some cv) :
    considerLatest e c = if runBefore e c then c else e := by
  unfold considerLatest orTime runBefore
  simp only [he, hc, Option.getD_some]
  by_cases h1 : ev < cv
  · simp [h1]
  · by_cases h2 : cv = ev ∧ e.id < c.id
    · have hor : ev < cv ∨ ev = cv ∧ e.id < c.id := Or.inr ⟨h2.1.symm, h2.2⟩
      simp [h1, h2, hor]
    · have hnor : ¬ (ev < cv ∨ ev = cv ∧ e.id < c.id) := by
        intro h
        rcases h with h | ⟨hh, hi⟩
        · exact h1 h
        · exact h2 ⟨hh.symm, hi⟩
      have h2s : ¬ (ev = cv ∧ e.id < c.id) := fun hx => h2 ⟨hx.1.symm, hx.2⟩
      simp [h1, h2, hnor, h2s]

lemma latest_unique {checks : List GHCheck} {n : String} {c1 c2 : GHCheck}
    (h1 : IsLatestRunFor checks n c1) (h2 : IsLatestRunFor checks n c2) : c1 = c2 := by
  obtain ⟨m1, n1, a1⟩ := h1
  obtain ⟨m2, n2, a2⟩ := h2
  rcases a1 c2 m2 n2 with h | h
  · exact h.symm
  · rcases a2 c1 m1 n1 with h2 | h2
    · exact h2
    · exact absurd (runBefore_trans h h2) (runBefore_irrefl _)

/-- Invariant of the `latest_checks` accumulator after processing the
prefix `seen`: one entry per name seen so far, each holding the
most-recent run of that name. -/
def GoodAcc (seen : List GHCheck) (acc : List (String × GHCheck)) : Prop :=
  (∀ p ∈ acc, p.2.name = p.1)
  ∧ (acc.map Prod.fst).Nodup
  ∧ (∀ n : String, n ∈ acc.map Prod.fst ↔ n ∈ seen.map GHCheck.name)
  ∧ (∀ p ∈ acc, IsLatestRunFor seen p.1 p.2)

lemma insLatest_not_mem {acc : List (String × GHCheck)} {c : GHCheck}
    (h : c.name ∉ acc.map Prod.fst) :
    insLatest acc c = acc ++ [(c.name, c)] := by
  induction acc with
  | nil => rfl
  | cons p rest ih =>
    obtain ⟨n, e⟩ := p
    simp only [List.map_cons, List.mem_cons, not_or] at h
    unfold insLatest
    rw [if_neg (fun hh => h.1 hh.symm), ih h.2]
    rfl

lemma insLatest_mem_decomp {acc : List (String × GHCheck)} {c : GHCheck}
    (h : c.name ∈ acc.map Prod.fst) :
    ∃ l1 e l2, acc = l1 ++ (c.name, e) :: l2
      ∧ c.name ∉ l1.map Prod.fst
      ∧ insLatest acc c = l1 ++ (c.name, considerLatest e c) :: l2 := by
  induction acc with
  | nil => simp at h
  | cons p rest ih =>
    obtain ⟨n, e⟩ := p
    by_cases hn : n = c.name
    · subst hn
      refine ⟨[], e, rest, by simp, by simp, ?_⟩
      unfold insLatest
      rw [if_pos rfl]
      rfl
    · have h2 : c.name ∈ rest.map Prod.fst := by
        simp only [List.map_cons, List.mem_cons] at h
        rcases h with h | h
        · exact absurd h.symm hn
        · exact h
      obtain ⟨l1, e1, l2, hdec, hnm, hins⟩ := ih h2
      refine ⟨(n, e) :: l1, e1, l2, by rw [hdec]; rfl, ?_, ?_⟩
      · simp only [List.map_cons, List.mem_cons, not_or]
        exact ⟨fun hh => hn hh.symm, hnm⟩
      · unfold insLatest
        rw [if_neg hn, hins]
        rfl

lemma goodAcc_step {seen : List GHCheck} {acc : List (String × GHCheck)} {c : GHCheck}
    (hstart : ∀ x ∈ seen ++ [c], (GHCheck.started_at x).isSome)
    (hid : ((seen ++ [c]).map GHCheck.id).Nodup)
    (hg : GoodAcc seen acc) :
    GoodAcc (seen ++ [c]) (insLatest acc c) := by
  obtain ⟨hnames, hnd, hmem, hlatest⟩ := hg
  have hcid : c.id ∉ seen.map GHCheck.id := by
    have := hid
    simp only [List.map_append, List.map_cons, List.map_nil] at this
    exact fun hmem2 => (List.disjoint_of_nodup_append this) hmem2 (by simp)
  by_cases hc : c.name ∈ acc.map Prod.fst
  · obtain ⟨l1, e, l2, hdec, _, hins⟩ := insLatest_mem_decomp hc
    have hemem : (c.name, e) ∈ acc := by rw [hdec]; simp
    have heName : e.name = c.name := hnames _ hemem
    have heLatest : IsLatestRunFor seen c.name e := hlatest _ hemem
    have heSeen : e ∈ seen := heLatest.1
    have hestart : (GHCheck.started_at e).isSome := hstart e (by simp [heSeen])
    have hcstart : (GHCheck.started_at c).isSome := hstart c (by simp)
    obtain ⟨ev, hev⟩ := Option.isSome_iff_exists.mp hestart
    obtain ⟨cv, hcv⟩ := Option.isSome_iff_exists.mp hcstart
    have hidne : e.id ≠ c.id := by
      intro hh
      exact hcid (hh ▸ List.mem_map_of_mem GHCheck.id heSeen)
    have hcons := considerLatest_eq hev hcv
    have hvlatest : IsLatestRunFor (seen ++ [c]) c.name (considerLatest e c) := by
      rw [hcons]
      by_cases hrb : runBefore e c
      · rw [if_pos hrb]
        refine ⟨by simp, rfl, ?_⟩
        intro c2 hc2 hc2n
        rcases List.mem_append.mp hc2 with hc2s | hc2c
        · rcases heLatest.2.2 c2 hc2s hc2n with h | h
          · exact Or.inr (h ▸ hrb)
          · exact Or.inr (runBefore_trans h hrb)
        · simp only [List.mem_singleton] at hc2c
          exact Or.inl hc2c
      · rw [if_neg hrb]
        have hrb2 : runBefore c e := (runBefore_total hidne).resolve_left hrb
        refine ⟨List.mem_append.mpr (Or.inl heSeen), heName, ?_⟩
        intro c2 hc2 hc2n
        rcases List.mem_append.mp hc2 with hc2s | hc2c
        · exact heLatest.2.2 c2 hc2s (heName ▸ hc2n)
        · simp only [List.mem_singleton] at hc2c
          exact Or.inr (hc2c ▸ hrb2)
    have hvname : (considerLatest e c).name = c.name := by
      rw [hcons]
      by_cases hrb : runBefore e c
      · rw [if_pos hrb]
      · rw [if_neg hrb]; exact heName
    refine ⟨?_, ?_, ?_, ?_⟩
    · intro p hp
      rw [hins] at hp
      rcases List.mem_append.mp hp with hp | hp
      · exact hnames p (by rw [hdec]; exact List.mem_append.mpr (Or.inl hp))
      · rcases List.mem_cons.mp hp with hp | hp
        · rw [hp]; exact hvname
        · exact hnames p (by rw [hdec]; exact List.mem_append.mpr (Or.inr (List.mem_cons.mpr (Or.inr hp))))
    · have : (insLatest acc c).map Prod.fst = acc.map Prod.fst := by
        rw [hins, hdec]
        simp
      rw [this]
      exact hnd
    · intro n
      have hkeys : (insLatest acc c).map Prod.fst = acc.map Prod.fst := by
        rw [hins, hdec]
        simp
      rw [hkeys, hmem n, List.map_append]
      simp only [List.map_cons, List.map_nil, List.mem_append, List.mem_singleton]
      constructor
      · exact fun hn => Or.inl hn
      · intro hn
        rcases hn with hn | hn
        · exact hn
        · rw [hn]
          exact (hmem c.name).mp hc
    · intro p hp
      rw [hins] at hp
      rcases List.mem_append.mp hp with hp | hp
      · -- entries before the replaced one keep their name, which differs from c.name
        have hpacc : p ∈ acc := by rw [hdec]; exact List.mem_append.mpr (Or.inl hp)
        have hpl := hlatest p hpacc
        have hkey : p.1 ≠ c.name := by
          intro hh
          have h1 : c.name ∈ l1.map Prod.fst := hh ▸ List.mem_map_of_mem Prod.fst hp
          have : ¬ (acc.map Prod.fst).Nodup → False := fun hx => hx hnd
          -- keys of acc = l1.keys ++ c.name :: l2.keys; c.name in l1.keys contradicts nodup
          have hkeysdec : acc.map Prod.fst = l1.map Prod.fst ++ c.name :: l2.map Prod.fst := by
            rw [hdec]; simp
          rw [hkeysdec] at hnd
          exact (List.disjoint_of_nodup_append hnd) h1 (by simp)
        refine ⟨List.mem_append.mpr (Or.inl hpl.1), hpl.2.1, ?_⟩
        intro c2 hc2 hc2n
        rcases List.mem_append.mp hc2 with hc2s | hc2c
        · exact hpl.2.2 c2 hc2s hc2n
        · simp only [List.mem_singleton] at hc2c
          exact absurd (hc2c ▸ hc2n).symm hkey
      · rcases List.mem_cons.mp hp with hp | hp
        · rw [hp]
          exact hvlatest
        · have hpacc : p ∈ acc := by
            rw [hdec]
            exact List.mem_append.mpr (Or.inr (List.mem_cons.mpr (Or.inr hp)))
          have hpl := hlatest p hpacc
          have hkey : p.1 ≠ c.name := by
            intro hh
            have h1 : c.name ∈ l2.map Prod.fst := hh ▸ List.mem_map_of_mem Prod.fst hp
            have hkeysdec : acc.map Prod.fst = l1.map Prod.fst ++ c.name :: l2.map Prod.fst := by
              rw [hdec]; simp
            rw [hkeysdec] at hnd
            have := (List.nodup_append.mp hnd).2.1
            rw [List.nodup_cons] at this
            exact this.1 h1
          refine ⟨List.mem_append.mpr (Or.inl hpl.1), hpl.2.1, ?_⟩
          intro c2 hc2 hc2n
          rcases List.mem_append.mp hc2 with hc2s | hc2c
          · exact hpl.2.2 c2 hc2s hc2n
          · simp only [List.mem_singleton] at hc2c
            exact absurd (hc2c ▸ hc2n).symm hkey
  · rw [insLatest_not_mem hc]
    have hcnotseen : c.name ∉ seen.map GHCheck.name := fun hh => hc ((hmem c.name).mpr hh)
    refine ⟨?_, ?_, ?_, ?_⟩
    · intro p hp
      rcases List.mem_append.mp hp with hp | hp
      · exact hnames p hp
      · simp only [List.mem_singleton] at hp
        rw [hp]
    · rw [List.map_append]
      simp only [List.map_cons, List.map_nil]
      rw [List.nodup_append]
      exact ⟨hnd, List.nodup_singleton _, by
        intro a ha hb
        simp only [List.mem_singleton] at hb
        exact hc (hb ▸ ha)⟩
    · intro n
      rw [List.map_append, List.map_append]
      simp only [List.map_cons, List.map_nil, List.mem_append, List.mem_singleton]
      constructor
      · intro hn
        rcases hn with hn | hn
        · exact Or.inl ((hmem n).mp hn)
        · exact Or.inr hn
      · intro hn
        rcases hn with hn | hn
        · exact Or.inl ((hmem n).mpr hn)
        · exact Or.inr hn
    · intro p hp
      rcases List.mem_append.mp hp with hp | hp
      · have hpl := hlatest p hp
        have hkey : p.1 ≠ c.name := by
          intro hh
          exact hc (hh ▸ List.mem_map_of_mem Prod.fst hp)
        refine ⟨List.mem_append.mpr (Or.inl hpl.1), hpl.2.1, ?_⟩
        intro c2 hc2 hc2n
        rcases List.mem_append.mp hc2 with hc2s | hc2c
        · exact hpl.2.2 c2 hc2s hc2n
        · simp only [List.mem_singleton] at hc2c
          exact absurd (hc2c ▸ hc2n).symm hkey
      · simp only [List.mem_singleton] at hp
        rw [hp]
        refine ⟨by simp, rfl, ?_⟩
        intro c2 hc2 hc2n
        rcases List.mem_append.mp hc2 with hc2s | hc2c
        · have hm : c2.name ∈ seen.map GHCheck.name := List.mem_map_of_mem GHCheck.name hc2s
          rw [hc2n] at hm
          exact absurd hm hcnotseen
        · simp only [List.mem_singleton] at hc2c
          exact Or.inl hc2c

lemma goodAcc_foldl (cs : List GHCheck) :
    ∀ (seen : List GHCheck) (acc : List (String × GHCheck)),
    (∀ x ∈ seen ++ cs, (GHCheck.started_at x).isSome) →
    (((seen ++ cs).map GHCheck.id).Nodup) →
    GoodAcc seen acc →
    GoodAcc (seen ++ cs) (cs.foldl insLatest acc) := by
  induction cs with
  | nil =>
    intro seen acc h1 h2 hg
    simpa using hg
  | cons c cs ih =>
    intro seen acc h1 h2 hg
    have hassoc : seen ++ c :: cs = (seen ++ [c]) ++ cs := by simp
    have hstep : GoodAcc (seen ++ [c]) (insLatest acc c) := by
      apply goodAcc_step ?_ ?_ hg
      · intro x hx
        apply h1
        rcases List.mem_append.mp hx with hx | hx
        · exact List.mem_append.mpr (Or.inl hx)
        · simp only [List.mem_singleton] at hx
          exact List.mem_append.mpr (Or.inr (by simp [hx]))
      · have h2x := h2
        rw [hassoc, List.map_append] at h2x
        exact (List.nodup_append.mp h2x).1
    have := ih (seen ++ [c]) (insLatest acc c) (by rw [← hassoc]; exact h1)
      (by rw [← hassoc]; exact h2) hstep
    simpa using this

/-- C1: with nested data enabled, the persisted check-failure and
check-pass counters of `sync_check_runs` equal the number of distinct
check names whose most-recent run (latest `started_at`, ties broken by the
higher id) concluded failure resp. success — never a sum across reruns.
The hypotheses say that every run carries a `started_at` and that run ids
are unique, as GitHub guarantees. -/
theorem check_counts_latest_per_name (checks : List GHCheck)
    (hstart : ∀ c ∈ checks, (GHCheck.started_at c).isSome)
    (hid : (checks.map GHCheck.id).Nodup) :
    (sync_check_run_counts checks).1 = latestConclusionCount checks "failure"
    ∧ (sync_check_run_counts checks).2 = latestConclusionCount checks "success" := by
  have hg : GoodAcc checks (latest_checks checks) := by
    have := goodAcc_foldl checks [] [] (by simpa using hstart) (by simpa using hid)
      ⟨by simp, by simp, by simp, by simp⟩
    simpa [latest_checks] using this
  obtain ⟨hnames, hnd, hmem, hlatest⟩ := hg
  have key : ∀ concl : String,
      (latest_checks checks).countP (fun p => decide (p.2.conclusion = some concl))
        = latestConclusionCount checks concl := by
    intro concl
    have h1 : (latest_checks checks).countP (fun p => decide (p.2.conclusion = some concl))
        = ((latest_checks checks).map Prod.fst).countP
            (fun n => decide (∃ c ∈ checks, IsLatestRunFor checks n c
              ∧ c.conclusion = some concl)) := by
      rw [List.countP_map]
      apply List.countP_congr
      intro p hp
      simp only [Function.comp, decide_eq_true_eq]
      constructor
      · intro hcc
        exact ⟨p.2, (hlatest p hp).1, hlatest p hp, hcc⟩
      · rintro ⟨c, _, hcl, hcc⟩
        rw [← latest_unique hcl (hlatest p hp)]
        exact hcc
    have h2 : ((latest_checks checks).map Prod.fst).Perm (checks.map GHCheck.name).dedup := by
      apply List.perm_of_nodup_nodup_toFinset_eq hnd (List.nodup_dedup _)
      ext n
      simp only [List.mem_toFinset, List.mem_dedup]
      exact hmem n
    rw [h1, h2.countP_eq]
    rfl
  exact ⟨key "failure", key "success"⟩

/-- Two runs of the check `lint`: the first concluded failure, the later one
(greater `started_at`, greater id) concluded success. -/
def rerunChecks : List GHCheck :=
  [⟨1, "lint", some "completed", some "failure", some 100, some 110⟩,
   ⟨2, "lint", some "completed", some "success", some 200, some 210⟩]

/-- Witness for `check_counts_latest_per_name`: on the failure-then-success
rerun of a single check the persisted counters are 0 failures and 1 pass —
the early failure does not contribute, and the counts are not a sum across
the two runs. -/
theorem check_counts_latest_per_name_witness :
    (∀ c ∈ rerunChecks, (GHCheck.started_at c).isSome)
    ∧ (rerunChecks.map GHCheck.id).Nodup
    ∧ (sync_check_run_counts rerunChecks).1 = latestConclusionCount rerunChecks "failure"
    ∧ (sync_check_run_counts rerunChecks).2 = latestConclusionCount rerunChecks "success"
    ∧ sync_check_run_counts rerunChecks = (0, 1) :=
  ⟨by decide, by decide,
    (check_counts_latest_per_name rerunChecks (by decide) (by decide)).1,
    (check_counts_latest_per_name rerunChecks (by decide) (by decide)).2,
    by decide⟩

/-! ## Race-safe get-or-create (github_service.py 133-171)

Two sync workers may race on creating the same User/Domain/Interface/Week/
Pod row.  The source pattern is: query by the natural key; if absent, insert
and flush; on the IntegrityError raised because a concurrent writer already
committed the row, roll back the local transaction and re-query.  The two
callers are modelled as state machines over a shared entity table, driven by
an arbitrary scheduler word; a query and an insert attempt (the uniqueness
check and the insert happen atomically inside the database) are the atomic
actions. -/

/-- Program counter of one get-or-create caller. -/
inductive GocPc where
  | start : GocPc
  | inserting : GocPc
  | requery : GocPc
  | done : Option Nat → GocPc
deriving DecidableEq

/-- The shared, committed entity table: rows of (surrogate id, natural key)
plus the id sequence. -/
structure EntityDb where
  rows : List (Nat × String)
  next_id : Nat
deriving DecidableEq

def lookupKey (db : EntityDb) (k : String) : Option Nat :=
  (db.rows.find? (fun r => decide (r.2 = k))).map Prod.fst

def countKey (db : EntityDb) (k : String) : Nat :=
  db.rows.countP (fun r => decide (r.2 = k))

/-- One atomic step of a caller running get-or-create for key `k`:
first query; insert attempt that either commits a fresh row or raises the
uniqueness violation (shared state untouched after rollback); re-query. -/
def gocStep (k : String) (db : EntityDb) : GocPc → EntityDb × GocPc
  | .start =>
    match lookupKey db k with
    | some i => (db, .done (some i))
    | none => (db, .inserting)
  | .inserting =>
    match lookupKey db k with
    | none =>
      ({ rows := db.rows ++ [(db.next_id, k)], next_id := db.next_id + 1 },
        .done (some db.next_id))
    | some _ => (db, .requery)
  | .requery => (db, .done (lookupKey db k))
  | .done r => (db, .done r)

structure RaceState where
  db : EntityDb
  a : GocPc
  b : GocPc
deriving DecidableEq

def raceStep (k : String) (st : RaceState) (turnA : Bool) : RaceState :=
  if turnA then
    let s := gocStep k st.db st.a
    { st with db := s.1, a := s.2 }
  else
    let s := gocStep k st.db st.b
    { st with db := s.1, b := s.2 }

def raceRun (k : String) (st : RaceState) (sched : List Bool) : RaceState :=
  sched.foldl (raceStep k) st

/-- Per-caller invariant: after a conflict there is a committed row for the
key, and a finished caller holds the id of a committed row. -/
def PcInv (db : EntityDb) (k : String) : GocPc → Prop
  | .start => True
  | .inserting => True
  | .requery => ∃ r ∈ db.rows, r.2 = k
  | .done res => ∃ i, res = some i ∧ (i, k) ∈ db.rows

def RaceInv (k : String) (st : RaceState) : Prop :=
  countKey st.db k ≤ 1 ∧ PcInv st.db k st.a ∧ PcInv st.db k st.b

lemma lookupKey_none_countKey {db : EntityDb} {k : String}
    (h : lookupKey db k = none) : countKey db k = 0 := by
  unfold lookupKey at h
  cases hf : db.rows.find? (fun r => decide (r.2 = k)) with
  | some r =>
    rw [hf] at h
    simp at h
  | none =>
    unfold countKey
    rw [List.countP_eq_zero]
    exact List.find?_eq_none.mp hf

lemma lookupKey_some_mem {db : EntityDb} {k : String} {i : Nat}
    (h : lookupKey db k = some i) : (i, k) ∈ db.rows := by
  unfold lookupKey at h
  cases hf : db.rows.find? (fun r => decide (r.2 = k)) with
  | none =>
    rw [hf] at h
    simp at h
  | some r =>
    rw [hf] at h
    have h2 : r.1 = i := by simpa using h
    have hmem := List.mem_of_find?_eq_some hf
    have hkey := List.find?_some hf
    simp only [decide_eq_true_eq] at hkey
    have hre : r = (i, k) := by
      obtain ⟨r1, r2⟩ := r
      simp only at h2 hkey
      rw [← h2, hkey]
    exact hre ▸ hmem

lemma pcInv_append {db : EntityDb} {k : String} {pc : GocPc} {newRows : List (Nat × String)}
    {m : Nat} (h : PcInv db k pc) :
    PcInv ⟨db.rows ++ newRows, m⟩ k pc := by
  cases pc with
  | start => trivial
  | inserting => trivial
  | requery =>
    obtain ⟨r, hr, hk⟩ := h
    exact ⟨r, List.mem_append.mpr (Or.inl hr), hk⟩
  | done res =>
    obtain ⟨i, hres, hmem⟩ := h
    exact ⟨i, hres, List.mem_append.mpr (Or.inl hmem)⟩

lemma gocStep_inv {k : String} {db : EntityDb} {pc : GocPc} {other : GocPc}
    (hcnt : countKey db k ≤ 1) (hpc : PcInv db k pc) (hother : PcInv db k other) :
    countKey (gocStep k db pc).1 k ≤ 1
    ∧ PcInv (gocStep k db pc).1 k (gocStep k db pc).2
    ∧ PcInv (gocStep k db pc).1 k other := by
  cases pc with
  | start =>
    unfold gocStep
    cases hl : lookupKey db k with
    | some i => exact ⟨hcnt, ⟨i, rfl, lookupKey_some_mem hl⟩, hother⟩
    | none => exact ⟨hcnt, trivial, hother⟩
  | inserting =>
    unfold gocStep
    cases hl : lookupKey db k with
    | none =>
      have h0 : countKey db k = 0 := lookupKey_none_countKey hl
      refine ⟨?_, ⟨db.next_id, rfl, by simp⟩, pcInv_append hother⟩
      unfold countKey at *
      rw [List.countP_append]
      simp [h0]
    | some i =>
      exact ⟨hcnt, ⟨(i, k), lookupKey_some_mem hl, rfl⟩, hother⟩
  | requery =>
    unfold gocStep
    obtain ⟨r, hr, hk⟩ := hpc
    have hsome : (db.rows.find? (fun r => decide (r.2 = k))).isSome := by
      rw [List.find?_isSome]
      exact ⟨r, hr, by simp [hk]⟩
    obtain ⟨r2, hr2⟩ := Option.isSome_iff_exists.mp hsome
    have hl : lookupKey db k = some r2.1 := by
      unfold lookupKey
      rw [hr2]
      rfl
    exact ⟨hcnt, ⟨r2.1, by rw [hl], lookupKey_some_mem hl⟩, hother⟩
  | done r =>
    exact ⟨hcnt, hpc, hother⟩

lemma raceStep_inv {k : String} {st : RaceState} {t : Bool}
    (h : RaceInv k st) : RaceInv k (raceStep k st t) := by
  obtain ⟨hcnt, ha, hb⟩ := h
  unfold raceStep
  cases t with
  | true =>
    have := gocStep_inv hcnt ha hb
    exact ⟨this.1, this.2.1, this.2.2⟩
  | false =>
    have := gocStep_inv hcnt hb ha
    exact ⟨this.1, this.2.2, this.2.1⟩

lemma raceRun_inv {k : String} (sched : List Bool) :
    ∀ st : RaceState, RaceInv k st → RaceInv k (raceRun k st sched) := by
  induction sched with
  | nil => exact fun st h => h
  | cons t ts ih =>
    intro st h
    exact ih _ (raceStep_inv h)

lemma countKey_eq_one_unique {db : EntityDb} {k : String} {i j : Nat}
    (hcnt : countKey db k ≤ 1) (hi : (i, k) ∈ db.rows) (hj : (j, k) ∈ db.rows) :
    i = j := by
  unfold countKey at hcnt
  rw [List.countP_eq_length_filter] at hcnt
  have hif : (i, k) ∈ db.rows.filter (fun r => decide (r.2 = k)) :=
    List.mem_filter.mpr ⟨hi, by simp⟩
  have hjf : (j, k) ∈ db.rows.filter (fun r => decide (r.2 = k)) :=
    List.mem_filter.mpr ⟨hj, by simp⟩
  rcases hfl : db.rows.filter (fun r => decide (r.2 = k)) with _ | ⟨x, rest⟩
  · rw [hfl] at hif
    simp at hif
  · rw [hfl] at hcnt hif hjf
    simp only [List.length_cons] at hcnt
    have hrest : rest = [] := List.length_eq_zero.mp (by omega)
    subst hrest
    simp only [List.mem_singleton] at hif hjf
    have := hif.trans hjf.symm
    exact (Prod.mk.injEq _ _ _ _ ▸ this).1

/-- C8: for any interleaving of two concurrent get-or-create callers on the
same natural key, starting from a table with no row for that key, if both
callers have finished then exactly one row for the key has been persisted,
and both callers obtained that row's id — the uniqueness violation of the
losing caller was absorbed into a rollback and re-query, not surfaced as a
failure (its result is `some`, never `none`). -/
theorem get_or_create_race_safe (k : String) (db0 : EntityDb) (sched : List Bool)
    (hinit : countKey db0 k = 0)
    (ha : ∃ ra, (raceRun k ⟨db0, .start, .start⟩ sched).a = .done ra)
    (hb : ∃ rb, (raceRun k ⟨db0, .start, .start⟩ sched).b = .done rb) :
    ∃ i, countKey (raceRun k ⟨db0, .start, .start⟩ sched).db k = 1
      ∧ (raceRun k ⟨db0, .start, .start⟩ sched).a = .done (some i)
      ∧ (raceRun k ⟨db0, .start, .start⟩ sched).b = .done (some i) := by
  have hinv : RaceInv k (raceRun k ⟨db0, .start, .start⟩ sched) :=
    raceRun_inv sched _ ⟨by show countKey db0 k ≤ 1; omega, trivial, trivial⟩
  obtain ⟨hcnt, hA, hB⟩ := hinv
  obtain ⟨ra, hra⟩ := ha
  obtain ⟨rb, hrb⟩ := hb
  rw [hra] at hA
  rw [hrb] at hB
  obtain ⟨i, hia, himem⟩ := hA
  obtain ⟨j, hjb, hjmem⟩ := hB
  have hij : i = j := countKey_eq_one_unique hcnt himem hjmem
  refine ⟨i, ?_, by rw [hra, hia], by rw [hrb, hjb, hij]⟩
  have hge : 1 ≤ countKey (raceRun k ⟨db0, .start, .start⟩ sched).db k := by
    unfold countKey
    rw [List.countP_eq_length_filter]
    have : (i, k) ∈ (raceRun k ⟨db0, .start, .start⟩ sched).db.rows.filter
        (fun r => decide (r.2 = k)) := List.mem_filter.mpr ⟨himem, by simp⟩
    exact List.length_pos.mpr (List.ne_nil_of_mem this)
  omega

/-- A schedule that exercises the conflict path: A queries (empty), B
queries (empty), B inserts and commits, A's insert hits the uniqueness
constraint and rolls back, A re-queries. -/
def raceDemoSched : List Bool := [true, false, false, true, true]

/-- Witness for `get_or_create_race_safe`: under `raceDemoSched` both
callers finish with the row id 1 created by B, and exactly one row for the
key exists. -/
theorem get_or_create_race_safe_witness :
    countKey ⟨[], 1⟩ "fund_finance" = 0
    ∧ (∃ i, countKey (raceRun "fund_finance" ⟨⟨[], 1⟩, .start, .start⟩ raceDemoSched).db
          "fund_finance" = 1
      ∧ (raceRun "fund_finance" ⟨⟨[], 1⟩, .start, .start⟩ raceDemoSched).a = .done (some i)
      ∧ (raceRun "fund_finance" ⟨⟨[], 1⟩, .start, .start⟩ raceDemoSched).b = .done (some i)) :=
  ⟨by decide,
    get_or_create_race_safe "fund_finance" ⟨[], 1⟩ raceDemoSched (by decide)
      ⟨some 1, by decide⟩ ⟨some 1, by decide⟩⟩

/-! ## The relational state (database.py) and the external record

Rows carry exactly the columns the synchronization core reads or writes;
`datetime` columns are epoch seconds.  The external PR record bundles what
the GitHub API returns for one pull request, including the artifact files
the synchronizer would fetch (an outer `none` means the file is absent from
the diff, `some none` that the fetch or any decoding of it failed). -/

structure UserRow where
  id : Nat
  github_username : String
  role : String
  email : String
deriving DecidableEq

structure DomainRow where
  id : Nat
  domain_name : String
deriving DecidableEq

structure InterfaceRow where
  id : Nat
  domain_id : Nat
  interface_num : Nat
deriving DecidableEq

structure WeekRow where
  id : Nat
  week_name : String
  week_num : Nat
deriving DecidableEq

structure PodRow where
  id : Nat
  name : String
deriving DecidableEq

structure ReviewRow where
  github_id : Nat
  pull_request_id : Nat
  reviewer_id : Option Nat
  reviewer_login : String
  state : String
  submitted_at : Option Int
  body : String
deriving DecidableEq

structure CheckRow where
  github_id : Nat
  pull_request_id : Nat
  name : String
  status : Option String
  conclusion : Option String
  started_at : Option Int
  completed_at : Option Int
deriving DecidableEq

structure DomainMetricsRow where
  domain : String
  total_tasks : Nat
  expert_review_pending : Nat
  calibrator_review_pending : Nat
  expert_approved : Nat
  ready_to_merge : Nat
  merged : Nat
  expert_count : Nat
  hard_count : Nat
  medium_count : Nat
  developers : List (String × Nat)
  reviewers : List (String × Nat)
  last_updated : Int
deriving DecidableEq

structure PRRow where
  id : Nat
  github_id : Nat
  number : Nat
  title : String
  state : String
  merged : Bool
  trainer_id : Option Nat
  domain_id : Option Nat
  interface_id : Option Nat
  week_id : Option Nat
  pod_id : Option Nat
  trainer_name : String
  domain : String
  interface_num : Nat
  complexity : String
  timestamp : String
  week_num : Option Nat
  week_name : Option String
  pod_name : Option String
  developer_username : String
  difficulty : String
  task_id : String
  author_login : String
  author_email : Option String
  created_at : Option Int
  updated_at : Option Int
  closed_at : Option Int
  merged_at : Option Int
  labels : List String
  requested_reviewers : List String
  review_count : Nat
  comment_count : Nat
  rework_count : Nat
  check_failures : Nat
  check_passes : Nat
  task_trials_total : Option Nat
  task_trials_passed : Option Nat
  task_trials_failed : Option Nat
  task_success_rate : Option ℚ
  instruction_text : Option String
  task_data_missing : Option Bool
  result_data_missing : Option Bool
  pass_count : Option Nat
  fail_count : Option Nat
  total_trials : Option Nat
  actual_difficulty : Option String
  task_folder : Option String
  last_synced : Option Int
deriving DecidableEq

structure Db where
  prs : List PRRow
  users : List UserRow
  domains : List DomainRow
  interfaces : List InterfaceRow
  weeks : List WeekRow
  pods : List PodRow
  reviews : List ReviewRow
  check_runs : List CheckRow
  assignments : List (Nat × Nat)
  domain_metrics : List DomainMetricsRow
  next_id : Nat
deriving DecidableEq

structure GHReview where
  id : Nat
  user_login : String
  state : String
  submitted_at : Option Int
  body : String
deriving DecidableEq

/-- The four figures the github-actions bot table can contribute
(`parse_task_execution_results` sets only the fields whose literal-label
patterns matched). -/
structure BotStats where
  total : Option Nat
  passed : Option Nat
  failed : Option Nat
  success_rate : Option ℚ
deriving DecidableEq

structure TaskArtifact where
  instruction : Option String
deriving DecidableEq

structure GHPullRequest where
  id : Nat
  number : Nat
  title : String
  state : String
  merged : Bool
  user_login : String
  user_email : Option String
  created_at : Option Int
  updated_at : Option Int
  closed_at : Option Int
  merged_at : Option Int
  labels : List String
  requested_reviewers : List String
  review_comments : Nat
  comments : Nat
  files : List String
  reviews : List GHReview
  checks : List GHCheck
  bot_stats : Option BotStats
  task_file : Option (Option TaskArtifact)
  result_file : Option (Option ResultArtifact)
deriving DecidableEq

/-- Python truthiness of an optional id (both `None` and `0` are falsy). -/
def truthyId : Option Nat → Bool
  | none => false
  | some n => decide (n ≠ 0)

/-! ## Entity get-or-create helpers (github_service.py 133-231), sequential
view.  The concurrency aspect of the same helpers is modelled separately by
`gocStep`; here, within one worker, the conflict branch cannot fire. -/

def get_or_create_user (username role : String) (db : Db) : UserRow × Db :=
  match db.users.find? (fun u => decide (u.github_username = username)) with
  | some u => (u, db)
  | none =>
    let u : UserRow := ⟨db.next_id, username, role, username ++ "@github.local"⟩
    (u, { db with users := db.users ++ [u], next_id := db.next_id + 1 })

def get_or_create_domain (domain_name : String) (db : Db) : DomainRow × Db :=
  match db.domains.find? (fun d => decide (d.domain_name = domain_name)) with
  | some d => (d, db)
  | none =>
    let d : DomainRow := ⟨db.next_id, domain_name⟩
    (d, { db with domains := db.domains ++ [d], next_id := db.next_id + 1 })

def get_or_create_interface (domain_id interface_num : Nat) (db : Db) : InterfaceRow × Db :=
  match db.interfaces.find? (fun i =>
      decide (i.domain_id = domain_id) && decide (i.interface_num = interface_num)) with
  | some i => (i, db)
  | none =>
    let i : InterfaceRow := ⟨db.next_id, domain_id, interface_num⟩
    (i, { db with interfaces := db.interfaces ++ [i], next_id := db.next_id + 1 })

def get_or_create_week (week_num : Nat) (db : Db) : WeekRow × Db :=
  match db.weeks.find? (fun w => decide (w.week_num = week_num)) with
  | some w => (w, db)
  | none =>
    let w : WeekRow := ⟨db.next_id, "week_" ++ toString week_num, week_num⟩
    (w, { db with weeks := db.weeks ++ [w], next_id := db.next_id + 1 })

def get_or_create_pod (pod_name : String) (db : Db) : PodRow × Db :=
  match db.pods.find? (fun p => decide (p.name = pod_name)) with
  | some p => (p, db)
  | none =>
    let p : PodRow := ⟨db.next_id, pod_name⟩
    (p, { db with pods := db.pods ++ [p], next_id := db.next_id + 1 })

/-- `assign_user_to_domain`: insert the (user, domain) join row when it is
not already there. -/
def assign_user_to_domain (user_id domain_id : Nat) (db : Db) : Db :=
  if (db.assignments.find? (fun a =>
      decide (a.1 = user_id) && decide (a.2 = domain_id))).isSome then db
  else { db with assignments := db.assignments ++ [(user_id, domain_id)] }

/-! ## Week/pod extraction from changed-file paths (github_service.py 30-34,
280-299): `^week_(\d+)(?:_[\w_-]+)?/([^/]+)/`, first matching file wins. -/

def week_pod_match (path : List Char) : Option (Nat × String) :=
  match matchLit "week_".toList path with
  | none => none
  | some rest =>
    let ds := rest.takeWhile Char.isDigit
    let rest2 := rest.dropWhile Char.isDigit
    if ds.isEmpty then none
    else
      let afterOpt : Option (List Char) :=
        match rest2 with
        | '_' :: more =>
          let run := more.takeWhile isDomainChar
          let rest3 := more.dropWhile isDomainChar
          if run.isEmpty then none
          else
            match rest3 with
            | '/' :: tail => some tail
            | _ => none
        | '/' :: tail => some tail
        | _ => none
      match afterOpt with
      | none => none
      | some tail =>
        let pod := tail.takeWhile (fun c => decide (c ≠ '/'))
        let rest4 := tail.dropWhile (fun c => decide (c ≠ '/'))
        if pod.isEmpty then none
        else
          match rest4 with
          | '/' :: _ => some (digitsToNat ds, String.mk pod)
          | _ => none

/-- `parse_week_pod_from_pr_files`: the first file whose path matches. -/
def parse_week_pod_from_pr_files (files : List String) : Option (Nat × String) :=
  files.findSome? (fun f => week_pod_match f.data)

example : parse_week_pod_from_pr_files
    ["week_14_fund_finance/alex_pod/alex-fund_finance-3-hard-1712345678/result.json"]
    = some (14, "alex_pod") := by decide

example : parse_week_pod_from_pr_files ["week_12/bandreddy_pod/task/file.py"]
    = some (12, "bandreddy_pod") := by decide

example : parse_week_pod_from_pr_files ["README.md", "week_9x/pod/"] = none := by decide

/-! ## The record synchronizer (github_service.py 585-806) -/

/-- A freshly constructed `PullRequest(github_id=...)` ORM object: every
other column at its default (database.py 178-230). -/
def newPRRow (gid : Nat) : PRRow :=
  { id := 0, github_id := gid, number := 0, title := "", state := "", merged := false,
    trainer_id := none, domain_id := none, interface_id := none, week_id := none,
    pod_id := none, trainer_name := "", domain := "", interface_num := 0,
    complexity := "", timestamp := "", week_num := none, week_name := none,
    pod_name := none, developer_username := "", difficulty := "", task_id := "",
    author_login := "", author_email := none, created_at := none, updated_at := none,
    closed_at := none, merged_at := none, labels := [], requested_reviewers := [],
    review_count := 0, comment_count := 0, rework_count := 0, check_failures := 0,
    check_passes := 0, task_trials_total := none, task_trials_passed := none,
    task_trials_failed := none, task_success_rate := none, instruction_text := none,
    task_data_missing := none, result_data_missing := none, pass_count := none,
    fail_count := none, total_trials := none, actual_difficulty := none,
    task_folder := none, last_synced := none }

/-- `should_process_pr` (github_service.py 90-98): a record is eligible iff
its title parses. -/
def should_process_pr (pr : GHPullRequest) : Bool :=
  (parse_pr_title pr.title).isSome

/-- `calculate_rework_count` (github_service.py 100-109): reviewer-submitted
changes-requested events only. -/
def calculate_rework_count (pr : GHPullRequest) : Nat :=
  pr.reviews.countP (fun r => decide (r.state = "CHANGES_REQUESTED"))

/-- `calculate_failed_checks_count` (github_service.py 111-127): every run
concluding failure, without per-name deduplication (with nested data the
deduplicated `sync_check_runs` counters later overwrite this value). -/
def calculate_failed_checks_count (pr : GHPullRequest) : Nat :=
  pr.checks.countP (fun c => decide (c.conclusion = some "failure"))

/-- `parse_task_execution_results` (github_service.py 806-850): set only the
fields whose literal-label patterns matched in the bot comment. -/
def parse_task_execution_results (stats : Option BotStats) (row : PRRow) : PRRow :=
  match stats with
  | none => row
  | some s =>
    let row : PRRow := match s.total with
      | some v => { row with task_trials_total := some v }
      | none => row
    let row : PRRow := match s.passed with
      | some v => { row with task_trials_passed := some v }
      | none => row
    let row : PRRow := match s.failed with
      | some v => { row with task_trials_failed := some v }
      | none => row
    match s.success_rate with
    | some v => { row with task_success_rate := some v }
    | none => row

def extract_instruction_from_task_json (t : TaskArtifact) : Option String :=
  t.instruction

/-- `fetch_and_store_task_data` (github_service.py 399-585): non-fatal
artifact handling — any absent or undecodable artifact only sets the
corresponding data-missing flag. -/
def fetch_and_store_task_data (pr : GHPullRequest) (row : PRRow) : PRRow :=
  if (parse_pr_title row.title).isNone then
    { row with task_data_missing := some true, result_data_missing := some true }
  else
    let row : PRRow :=
      match pr.task_file with
      | some (some tj) =>
        { row with instruction_text := extract_instruction_from_task_json tj,
                   task_data_missing := some false }
      | some none => { row with task_data_missing := some true }
      | none => { row with task_data_missing := some true }
    match pr.result_file with
    | some (some res) =>
      let counts := calculate_pass_fail_counts res
      { row with pass_count := some counts.pass_count,
                 fail_count := some counts.fail_count,
                 total_trials := some counts.total_trials,
                 actual_difficulty :=
                   some (calculate_actual_difficulty counts.pass_count counts.total_trials),
                 result_data_missing := some false }
    | some none => { row with result_data_missing := some true }
    | none => { row with result_data_missing := some true }

/-- One review upsert of `sync_reviews` (github_service.py 851-880). -/
def sync_one_review (pr_row_id : Nat) (domain_id : Option Nat) (db : Db) (r : GHReview) : Db :=
  let res := get_or_create_user r.user_login "pod_lead" db
  let reviewer := res.1
  let db : Db := res.2
  let db : Db :=
    match domain_id with
    | some did =>
      match db.domains.find? (fun d => decide (d.id = did)) with
      | some d => assign_user_to_domain reviewer.id d.id db
      | none => db
    | none => db
  match db.reviews.find? (fun dr => decide (dr.github_id = r.id)) with
  | none =>
    { db with reviews := db.reviews ++
        [⟨r.id, pr_row_id, some reviewer.id, r.user_login, r.state, r.submitted_at, r.body⟩] }
  | some _ =>
    { db with reviews := db.reviews.map (fun dr =>
        if dr.github_id = r.id then
          { dr with
              reviewer_id := some reviewer.id
              state := r.state
              body := r.body }
        else dr) }

def sync_reviews (pr : GHPullRequest) (pr_row_id : Nat) (domain_id : Option Nat)
    (db : Db) : Db :=
  pr.reviews.foldl (sync_one_review pr_row_id domain_id) db

/-- One check-run upsert of `sync_check_runs`. -/
def sync_one_check (pr_row_id : Nat) (db : Db) (c : GHCheck) : Db :=
  match db.check_runs.find? (fun dc => decide (dc.github_id = c.id)) with
  | none =>
    { db with check_runs := db.check_runs ++
        [⟨c.id, pr_row_id, c.name, c.status, c.conclusion, c.started_at, c.completed_at⟩] }
  | some _ =>
    { db with check_runs := db.check_runs.map (fun dc =>
        if dc.github_id = c.id then
            { dc with
              status := c.status
              conclusion := c.conclusion
              completed_at := c.completed_at }
        else dc) }

/-- `sync_check_runs` (github_service.py 880-940): upsert each run row and
persist the deduplicated latest-run counters on the PR row. -/
def sync_check_runs_db (pr : GHPullRequest) (row : PRRow) (db : Db) : PRRow × Db :=
  let db : Db := pr.checks.foldl (sync_one_check row.id) db
  let counts := sync_check_run_counts pr.checks
  ({ row with check_failures := counts.1, check_passes := counts.2 }, db)

/-- `db.add` (new row, freshly assigned id) or update-in-place, followed by
`db.flush()`. -/
def flushPr (row : PRRow) (is_new : Bool) (db : Db) : PRRow × Db :=
  if is_new then
    let row := { row with id := db.next_id }
    (row, { db with prs := db.prs ++ [row], next_id := db.next_id + 1 })
  else
    (row, { db with prs := db.prs.map (fun r =>
        if r.github_id = row.github_id then row else r) })

/-- `GitHubService.sync_pull_request` (github_service.py 585-806). -/
def sync_pull_request (pr : GHPullRequest) (db : Db) (skip_nested_data : Bool)
    (now : Int) : Option PRRow × Db :=
  if ¬ should_process_pr pr then (none, db)
  else
    match parse_pr_title pr.title with
    | none => (none, db)
    | some parsed =>
      let existing := db.prs.find? (fun r => decide (r.github_id = pr.id))
      let db_pr := existing.getD (newPRRow pr.id)
      let is_new := existing.isNone
      if skip_nested_data ∧ pr.state = "closed" ∧ truthyId db_pr.week_id then
        let row : PRRow := { db_pr with
          state := pr.state
          merged := pr.merged
          updated_at := pr.updated_at
          closed_at := pr.closed_at
          merged_at := pr.merged_at
          last_synced := some now }
        (some row, { db with prs := db.prs.map (fun r =>
            if r.github_id = pr.id then row else r) })
      else
        let row : PRRow := { db_pr with
          number := pr.number
          title := pr.title
          state := pr.state
          merged := pr.merged
          trainer_name := parsed.trainer_name
          domain := parsed.domain
          interface_num := parsed.interface_num
          complexity := parsed.complexity
          timestamp := parsed.timestamp
          developer_username := pr.user_login
          difficulty := parsed.complexity
          task_id := parsed.timestamp
          author_login := pr.user_login
          author_email :=
            match pr.user_email with
            | some e => if e ≠ "" then some e else db_pr.author_email
            | none => db_pr.author_email
          created_at := pr.created_at
          updated_at := pr.updated_at
          closed_at := pr.closed_at
          merged_at := pr.merged_at
          labels := pr.labels
          requested_reviewers := pr.requested_reviewers
          review_count := pr.review_comments
          comment_count := pr.comments }
        let row : PRRow := parse_task_execution_results pr.bot_stats row
        let row : PRRow := { row with
          rework_count := calculate_rework_count pr
          check_failures := calculate_failed_checks_count pr }
        let tRes := get_or_create_user pr.user_login "trainer" db
        let trainer := tRes.1
        let db : Db := tRes.2
        let row : PRRow := { row with trainer_id := some trainer.id }
        let dRes := get_or_create_domain parsed.domain db
        let dom := dRes.1
        let db : Db := dRes.2
        let row : PRRow := { row with domain_id := some dom.id }
        let iRes := get_or_create_interface dom.id parsed.interface_num db
        let db : Db := iRes.2
        let row : PRRow := { row with interface_id := some iRes.1.id }
        let should_skip_files := skip_nested_data ∨ (truthyId row.week_id ∧ truthyId row.pod_id)
        let wp : PRRow × Db :=
          if should_skip_files then (row, db)
          else
            match parse_week_pod_from_pr_files pr.files with
            | none => (row, db)
            | some (week_num, pod_name) =>
              let wRes := get_or_create_week week_num db
              let db : Db := wRes.2
              let pRes := get_or_create_pod pod_name db
              let db : Db := pRes.2
              ({ row with
                  week_id := some wRes.1.id
                  pod_id := some pRes.1.id
                  week_num := some wRes.1.week_num
                  week_name := some wRes.1.week_name
                  pod_name := some pRes.1.name }, db)
        let row : PRRow := wp.1
        let db : Db := wp.2
        let db : Db := assign_user_to_domain trainer.id dom.id db
        let row : PRRow := { row with last_synced := some now }
        let fRes := flushPr row is_new db
        let row : PRRow := fRes.1
        let db : Db := fRes.2
        if skip_nested_data then (some row, db)
        else
          let db : Db := sync_reviews pr row.id row.domain_id db
          let cRes := sync_check_runs_db pr row db
          let row : PRRow := cRes.1
          let db : Db := cRes.2
          let row : PRRow :=
            if row.merged ∧ row.merged_at.isSome then fetch_and_store_task_data pr row
            else row
          let db : Db := { db with prs := db.prs.map (fun r =>
              if r.github_id = pr.id then row else r) }
          (some row, db)

structure SyncStats where
  synced : Nat
  skipped : Nat
deriving DecidableEq

/-- One iteration of the sync loops (e.g. github_service.py 1036-1061):
non-eligible or failed records count as skipped, persisted ones as synced. -/
def sync_batch_step (now : Int) (acc : SyncStats × Db) (pr : GHPullRequest) :
    SyncStats × Db :=
  match sync_pull_request pr acc.2 false now with
  | (some _, db) => ({ acc.1 with synced := acc.1.synced + 1 }, db)
  | (none, db) => ({ acc.1 with skipped := acc.1.skipped + 1 }, db)

def sync_batch (prs : List GHPullRequest) (db : Db) (now : Int) : SyncStats × Db :=
  prs.foldl (sync_batch_step now) (⟨0, 0⟩, db)

/-! ## Domain metrics recomputation (github_service.py 1199-1281)

`update_domain_metrics` iterates the distinct non-empty PR domains; for each
it recomputes every DomainMetrics column from the persisted PullRequest and
Review rows and upserts the row keyed by the domain name. -/

def labelsLower (labels : List String) : List String :=
  labels.map (fun l => String.mk (l.data.map Char.toLower))

/-- `counts[k] = counts.get(k, 0) + 1` on an insertion-ordered counter. -/
def bumpCount (m : List (String × Nat)) (k : String) : List (String × Nat) :=
  match m.find? (fun p => decide (p.1 = k)) with
  | some _ => m.map (fun p => if p.1 = k then (p.1, p.2 + 1) else p)
  | none => m ++ [(k, 1)]

/-- The pure aggregation for one domain over the persisted rows: the counts
by merge state and priority-ordered status label, by difficulty, and the
per-developer/per-reviewer breakdowns. -/
def computeDomainMetric (prs : List PRRow) (reviews : List ReviewRow) (d : String)
    (now : Int) : DomainMetricsRow :=
  let dprs := prs.filter (fun pr => decide (pr.domain = d))
  let dreviews := reviews.filter (fun rv =>
    decide ((prs.find? (fun pr => decide (pr.id = rv.pull_request_id))).map
      (fun pr => pr.domain) = some d))
  { domain := d
    total_tasks := dprs.length
    merged := dprs.countP (fun pr => pr.merged)
    ready_to_merge := dprs.countP (fun pr =>
      !pr.merged && decide ("ready to merge" ∈ labelsLower pr.labels))
    expert_approved := dprs.countP (fun pr =>
      !pr.merged && !decide ("ready to merge" ∈ labelsLower pr.labels)
        && decide ("expert approved" ∈ labelsLower pr.labels))
    calibrator_review_pending := dprs.countP (fun pr =>
      !pr.merged && !decide ("ready to merge" ∈ labelsLower pr.labels)
        && !decide ("expert approved" ∈ labelsLower pr.labels)
        && decide ("calibrator review pending" ∈ labelsLower pr.labels))
    expert_review_pending := dprs.countP (fun pr =>
      !pr.merged && !decide ("ready to merge" ∈ labelsLower pr.labels)
        && !decide ("expert approved" ∈ labelsLower pr.labels)
        && !decide ("calibrator review pending" ∈ labelsLower pr.labels)
        && decide ("expert review pending" ∈ labelsLower pr.labels))
    expert_count := dprs.countP (fun pr => decide (pr.difficulty = "expert"))
    hard_count := dprs.countP (fun pr => decide (pr.difficulty = "hard"))
    medium_count := dprs.countP (fun pr => decide (pr.difficulty = "medium"))
    developers := dprs.foldl (fun m pr =>
      if pr.developer_username ≠ "" then bumpCount m pr.developer_username else m) []
    reviewers := dreviews.foldl (fun m rv =>
      if rv.reviewer_login ≠ "" then bumpCount m rv.reviewer_login else m) []
    last_updated := now }

/-- Replace the (first) row keyed by the same domain, or append. -/
def upsertDomainMetric : List DomainMetricsRow → DomainMetricsRow → List DomainMetricsRow
  | [], row => [row]
  | m :: rest, row =>
    if m.domain = row.domain then row :: rest
    else m :: upsertDomainMetric rest row

/-- The distinct non-empty domains currently present in the PR table. -/
def distinctDomains (prs : List PRRow) : List String :=
  ((prs.map (fun pr => pr.domain)).dedup).filter (fun d => decide (d ≠ ""))

/-- `GitHubService.update_domain_metrics`. -/
def update_domain_metrics (db : Db) (now : Int) : Db :=
  let tbl :=
    (distinctDomains db.prs).foldl
      (fun tbl d => upsertDomainMetric tbl (computeDomainMetric db.prs db.reviews d now))
      db.domain_metrics
  { db with domain_metrics := tbl }

/-- Erase the recomputation timestamp of a rollup row. -/
def stripMetricTime (m : DomainMetricsRow) : DomainMetricsRow :=
  { m with last_updated := 0 }

lemma stripMetricTime_domain (m : DomainMetricsRow) :
    (stripMetricTime m).domain = m.domain := rfl

lemma strip_computeDomainMetric (prs : List PRRow) (revs : List ReviewRow)
    (d : String) (n : Int) :
    stripMetricTime (computeDomainMetric prs revs d n)
      = computeDomainMetric prs revs d 0 := rfl

lemma computeDomainMetric_domain (prs : List PRRow) (revs : List ReviewRow)
    (d : String) (n : Int) : (computeDomainMetric prs revs d n).domain = d := rfl

lemma map_strip_upsert (tbl : List DomainMetricsRow) (row : DomainMetricsRow) :
    (upsertDomainMetric tbl row).map stripMetricTime
      = upsertDomainMetric (tbl.map stripMetricTime) (stripMetricTime row) := by
  induction tbl with
  | nil => rfl
  | cons m rest ih =>
    simp only [List.map_cons]
    unfold upsertDomainMetric
    by_cases h : m.domain = row.domain
    · have h2 : (stripMetricTime m).domain = (stripMetricTime row).domain := by
        rw [stripMetricTime_domain, stripMetricTime_domain, h]
      rw [if_pos h, if_pos h2]
      simp only [List.map_cons]
    · have h2 : ¬ (stripMetricTime m).domain = (stripMetricTime row).domain := by
        rw [stripMetricTime_domain, stripMetricTime_domain]
        exact h
      rw [if_neg h, if_neg h2]
      simp only [List.map_cons, ih]

lemma map_strip_foldl (ds : List String) (prs : List PRRow) (revs : List ReviewRow)
    (n : Int) (tbl : List DomainMetricsRow) :
    (ds.foldl (fun t d => upsertDomainMetric t (computeDomainMetric prs revs d n)) tbl).map
        stripMetricTime
      = ds.foldl (fun t d => upsertDomainMetric t (computeDomainMetric prs revs d 0))
          (tbl.map stripMetricTime) := by
  induction ds generalizing tbl with
  | nil => rfl
  | cons d ds ih =>
    simp only [List.foldl_cons]
    rw [ih, map_strip_upsert, strip_computeDomainMetric]

lemma upsert_find_self (tbl : List DomainMetricsRow) (row : DomainMetricsRow) :
    (upsertDomainMetric tbl row).find? (fun m => decide (m.domain = row.domain))
      = some row := by
  induction tbl with
  | nil =>
    unfold upsertDomainMetric
    simp [List.find?]
  | cons m rest ih =>
    unfold upsertDomainMetric
    by_cases h : m.domain = row.domain
    · rw [if_pos h]
      simp [List.find?]
    · rw [if_neg h]
      rw [List.find?_cons_of_neg _ (by simp [h])]
      exact ih

lemma upsert_find_other (tbl : List DomainMetricsRow) (row : DomainMetricsRow)
    (d : String) (h : d ≠ row.domain) :
    (upsertDomainMetric tbl row).find? (fun m => decide (m.domain = d))
      = tbl.find? (fun m => decide (m.domain = d)) := by
  have hrd : ¬ row.domain = d := fun hh => h hh.symm
  induction tbl with
  | nil =>
    unfold upsertDomainMetric
    simp [List.find?, hrd]
  | cons m rest ih =>
    unfold upsertDomainMetric
    by_cases hm : m.domain = row.domain
    · rw [if_pos hm]
      have hmd : ¬ m.domain = d := by
        intro hh
        rw [hh] at hm
        exact hrd hm.symm
      rw [List.find?_cons_of_neg _ (by simp [hrd]),
        List.find?_cons_of_neg _ (by simp [hmd])]
    · rw [if_neg hm]
      by_cases hmd : m.domain = d
      · rw [List.find?_cons_of_pos _ (by simp [hmd]),
          List.find?_cons_of_pos _ (by simp [hmd])]
      · rw [List.find?_cons_of_neg _ (by simp [hmd]),
          List.find?_cons_of_neg _ (by simp [hmd])]
        exact ih

lemma foldl_upsert_find_preserved (ds : List String) (f : String → DomainMetricsRow)
    (hf : ∀ x, (f x).domain = x) (d : String) (hd : d ∉ ds) :
    ∀ tbl : List DomainMetricsRow,
      (ds.foldl (fun t x => upsertDomainMetric t (f x)) tbl).find?
          (fun m => decide (m.domain = d))
        = tbl.find? (fun m => decide (m.domain = d)) := by
  induction ds with
  | nil => intro tbl; rfl
  | cons x ds ih =>
    intro tbl
    simp only [List.mem_cons, not_or] at hd
    simp only [List.foldl_cons]
    rw [ih hd.2, upsert_find_other _ _ _ (by rw [hf]; exact hd.1)]

lemma foldl_upsert_find (ds : List String) (f : String → DomainMetricsRow)
    (hf : ∀ x, (f x).domain = x) (hnd : ds.Nodup) :
    ∀ tbl : List DomainMetricsRow, ∀ d ∈ ds,
      (ds.foldl (fun t x => upsertDomainMetric t (f x)) tbl).find?
          (fun m => decide (m.domain = d)) = some (f d) := by
  induction ds with
  | nil => simp
  | cons x ds ih =>
    intro tbl d hd
    simp only [List.foldl_cons]
    rw [List.nodup_cons] at hnd
    rcases List.mem_cons.mp hd with h | h
    · subst h
      rw [foldl_upsert_find_preserved ds f hf d hnd.1]
      have := upsert_find_self tbl (f d)
      rw [hf] at this
      exact this
    · exact ih hnd.2 (upsertDomainMetric tbl (f x)) d h

lemma upsert_self_no_change (tbl : List DomainMetricsRow) (row : DomainMetricsRow)
    (h : tbl.find? (fun m => decide (m.domain = row.domain)) = some row) :
    upsertDomainMetric tbl row = tbl := by
  induction tbl with
  | nil => simp [List.find?] at h
  | cons m rest ih =>
    unfold upsertDomainMetric
    by_cases hm : m.domain = row.domain
    · rw [if_pos hm]
      rw [List.find?_cons_of_pos _ (by simp [hm])] at h
      simp only [Option.some.injEq] at h
      rw [h]
    · rw [if_neg hm]
      rw [List.find?_cons_of_neg _ (by simp [hm])] at h
      rw [ih h]

lemma foldl_upsert_noop (ds : List String) (f : String → DomainMetricsRow)
    (hf : ∀ x, (f x).domain = x) :
    ∀ T : List DomainMetricsRow,
    (∀ d ∈ ds, T.find? (fun m => decide (m.domain = d)) = some (f d)) →
    ds.foldl (fun t x => upsertDomainMetric t (f x)) T = T := by
  induction ds with
  | nil => intro T _; rfl
  | cons x ds ih =>
    intro T h
    simp only [List.foldl_cons]
    have hx : upsertDomainMetric T (f x) = T := by
      apply upsert_self_no_change
      rw [hf]
      exact h x (by simp)
    rw [hx]
    exact ih T (fun d hd => h d (by simp [hd]))

/-- A minimal persisted PR row for concrete evaluations. -/
def demoPrRow : PRRow :=
  { newPRRow 1000 with
      id := 1
      number := 7
      title := "alex-finance-3-hard-1712345678"
      state := "closed"
      merged := true
      domain := "finance"
      difficulty := "hard"
      developer_username := "alex" }

def demoDb : Db :=
  { prs := [demoPrRow]
    users := []
    domains := []
    interfaces := []
    weeks := []
    pods := []
    reviews := []
    check_runs := []
    assignments := []
    domain_metrics := []
    next_id := 2 }

/-- C5 counterexample: running the domain rollup recomputation twice in
succession over an unchanged database does not produce identical persisted
rollup rows, because each run stamps `last_updated` with the current time
(the runs here happen at clock values 0 and 1). -/
theorem domain_metrics_recompute_not_byte_identical :
    (update_domain_metrics (update_domain_metrics demoDb 0) 1).domain_metrics
      ≠ (update_domain_metrics demoDb 0).domain_metrics := by
  decide

/-- C5 (amended): the recomputation never touches the PullRequest/Review
tables; rerunning it with no intervening writes reproduces the rollup table
field-for-field except the `last_updated` stamp; and each run fully replaces
the rollup row of every affected domain with the pure aggregation of the
currently persisted PullRequest/Review rows. -/
theorem domain_metrics_recompute_idempotent (db : Db) (now1 now2 : Int) :
    (update_domain_metrics db now1).prs = db.prs
    ∧ (update_domain_metrics db now1).reviews = db.reviews
    ∧ (update_domain_metrics (update_domain_metrics db now1) now2).domain_metrics.map
        stripMetricTime
      = (update_domain_metrics db now1).domain_metrics.map stripMetricTime
    ∧ (∀ d ∈ distinctDomains db.prs,
        (update_domain_metrics db now1).domain_metrics.find?
            (fun m => decide (m.domain = d))
          = some (computeDomainMetric db.prs db.reviews d now1)) := by
  have hnd : (distinctDomains db.prs).Nodup :=
    List.Nodup.filter _ (List.nodup_dedup _)
  refine ⟨rfl, rfl, ?_, ?_⟩
  · show ((distinctDomains db.prs).foldl
        (fun t d => upsertDomainMetric t (computeDomainMetric db.prs db.reviews d now2))
        ((distinctDomains db.prs).foldl
          (fun t d => upsertDomainMetric t (computeDomainMetric db.prs db.reviews d now1))
          db.domain_metrics)).map stripMetricTime
      = ((distinctDomains db.prs).foldl
          (fun t d => upsertDomainMetric t (computeDomainMetric db.prs db.reviews d now1))
          db.domain_metrics).map stripMetricTime
    rw [map_strip_foldl, map_strip_foldl]
    apply foldl_upsert_noop _ _ (fun x => computeDomainMetric_domain _ _ _ _)
    intro d hd
    exact foldl_upsert_find _ _ (fun x => computeDomainMetric_domain _ _ _ _) hnd _ d hd
  · intro d hd
    exact foldl_upsert_find _ _ (fun x => computeDomainMetric_domain _ _ _ _) hnd _ d hd

/-- Witness for `domain_metrics_recompute_idempotent` on the one-PR demo
database and the domain `finance`. -/
theorem domain_metrics_recompute_idempotent_witness :
    "finance" ∈ distinctDomains demoDb.prs
    ∧ (update_domain_metrics demoDb 0).domain_metrics.find?
        (fun m => decide (m.domain = "finance"))
      = some (computeDomainMetric demoDb.prs demoDb.reviews "finance" 0) :=
  ⟨by decide,
    (domain_metrics_recompute_idempotent demoDb 0 0).2.2.2 "finance" (by decide)⟩

/-- The scalar fields the quick-update path of `sync_pull_request`
(github_service.py 623-631) refreshes: state, merged flag, the
updated/closed/merged timestamps and the `last_synced` watermark. -/
def QuickUpdateSets (pr : GHPullRequest) (now : Int) (r2 : PRRow) : Prop :=
  r2.state = pr.state ∧ r2.merged = pr.merged ∧ r2.updated_at = pr.updated_at
  ∧ r2.closed_at = pr.closed_at ∧ r2.merged_at = pr.merged_at
  ∧ r2.last_synced = some now

/-- Every PullRequest column other than the six the quick-update path
refreshes is untouched. -/
def QuickUpdateFrame (r r2 : PRRow) : Prop :=
  r2.id = r.id
  ∧ r2.github_id = r.github_id
  ∧ r2.number = r.number
  ∧ r2.title = r.title
  ∧ r2.trainer_id = r.trainer_id
  ∧ r2.domain_id = r.domain_id
  ∧ r2.interface_id = r.interface_id
  ∧ r2.week_id = r.week_id
  ∧ r2.pod_id = r.pod_id
  ∧ r2.trainer_name = r.trainer_name
  ∧ r2.domain = r.domain
  ∧ r2.interface_num = r.interface_num
  ∧ r2.complexity = r.complexity
  ∧ r2.timestamp = r.timestamp
  ∧ r2.week_num = r.week_num
  ∧ r2.week_name = r.week_name
  ∧ r2.pod_name = r.pod_name
  ∧ r2.developer_username = r.developer_username
  ∧ r2.difficulty = r.difficulty
  ∧ r2.task_id = r.task_id
  ∧ r2.author_login = r.author_login
  ∧ r2.author_email = r.author_email
  ∧ r2.created_at = r.created_at
  ∧ r2.labels = r.labels
  ∧ r2.requested_reviewers = r.requested_reviewers
  ∧ r2.review_count = r.review_count
  ∧ r2.comment_count = r.comment_count
  ∧ r2.rework_count = r.rework_count
  ∧ r2.check_failures = r.check_failures
  ∧ r2.check_passes = r.check_passes
  ∧ r2.task_trials_total = r.task_trials_total
  ∧ r2.task_trials_passed = r.task_trials_passed
  ∧ r2.task_trials_failed = r.task_trials_failed
  ∧ r2.task_success_rate = r.task_success_rate
  ∧ r2.instruction_text = r.instruction_text
  ∧ r2.task_data_missing = r.task_data_missing
  ∧ r2.result_data_missing = r.result_data_missing
  ∧ r2.pass_count = r.pass_count
  ∧ r2.fail_count = r.fail_count
  ∧ r2.total_trials = r.total_trials
  ∧ r2.actual_difficulty = r.actual_difficulty
  ∧ r2.task_folder = r.task_folder

/-- No table other than the PullRequest rows is touched. -/
def DbTablesUnchanged (db db2 : Db) : Prop :=
  db2.users = db.users ∧ db2.domains = db.domains ∧ db2.interfaces = db.interfaces
  ∧ db2.weeks = db.weeks ∧ db2.pods = db.pods ∧ db2.reviews = db.reviews
  ∧ db2.check_runs = db.check_runs ∧ db2.assignments = db.assignments
  ∧ db2.domain_metrics = db.domain_metrics ∧ db2.next_id = db.next_id

/-- C6: syncing a closed record with `skipNested = true` whose persisted row
already has week data takes the quick-update path: the result row agrees
with the GitHub record on exactly the six scalar fields and with the old row
on every other column, the only database change is that row replacement, and
no other table is modified. -/
theorem quick_update_frame (pr : GHPullRequest) (db : Db) (now : Int) (r : PRRow)
    (hfind : db.prs.find? (fun x => decide (x.github_id = pr.id)) = some r)
    (hclosed : pr.state = "closed")
    (hweek : truthyId r.week_id = true)
    (hparse : (parse_pr_title pr.title).isSome = true) :
    ∃ r2,
      sync_pull_request pr db true now
        = (some r2, { db with prs := db.prs.map (fun x =>
            if x.github_id = pr.id then r2 else x) })
      ∧ QuickUpdateSets pr now r2
      ∧ QuickUpdateFrame r r2
      ∧ DbTablesUnchanged db (sync_pull_request pr db true now).2 := by
  obtain ⟨p, hp⟩ := Option.isSome_iff_exists.mp hparse
  refine ⟨{ r with
      state := pr.state
      merged := pr.merged
      updated_at := pr.updated_at
      closed_at := pr.closed_at
      merged_at := pr.merged_at
      last_synced := some now }, ?_, ?_, ?_, ?_⟩
  case _ =>
    unfold sync_pull_request should_process_pr
    rw [hp, hfind]
    simp [hclosed, hweek]
  case _ =>
    exact ⟨rfl, rfl, rfl, rfl, rfl, rfl⟩
  case _ =>
    exact ⟨rfl, rfl, rfl, rfl, rfl, rfl, rfl, rfl, rfl, rfl, rfl, rfl, rfl, rfl, rfl, rfl, rfl, rfl, rfl, rfl, rfl, rfl, rfl, rfl, rfl, rfl, rfl, rfl, rfl, rfl, rfl, rfl, rfl, rfl, rfl, rfl, rfl, rfl, rfl, rfl, rfl, rfl⟩
  case _ =>
    have hmain : sync_pull_request pr db true now
        = (some { r with
            state := pr.state
            merged := pr.merged
            updated_at := pr.updated_at
            closed_at := pr.closed_at
            merged_at := pr.merged_at
            last_synced := some now }, { db with prs := db.prs.map (fun x =>
            if x.github_id = pr.id then { r with
              state := pr.state
              merged := pr.merged
              updated_at := pr.updated_at
              closed_at := pr.closed_at
              merged_at := pr.merged_at
              last_synced := some now } else x) }) := by
      unfold sync_pull_request should_process_pr
      rw [hp, hfind]
      simp [hclosed, hweek]
    rw [hmain]
    exact ⟨rfl, rfl, rfl, rfl, rfl, rfl, rfl, rfl, rfl, rfl⟩

/-- A persisted row that already carries week data. -/
def demoWeekPr : PRRow :=
  { demoPrRow with
      week_id := some 3
      pod_id := some 4
      week_num := some 14
      week_name := some "week_14"
      pod_name := some "alex_pod" }

def demoDb2 : Db :=
  { demoDb with prs := [demoWeekPr] }

/-- The same record as seen from GitHub, closed and merged. -/
def demoClosedPr : GHPullRequest :=
  { id := 1000
    number := 7
    title := "alex-finance-3-hard-1712345678"
    state := "closed"
    merged := true
    user_login := "alex"
    user_email := none
    created_at := some 10
    updated_at := some 20
    closed_at := some 30
    merged_at := some 30
    labels := []
    requested_reviewers := []
    review_comments := 0
    comments := 0
    files := []
    reviews := []
    checks := []
    bot_stats := none
    task_file := none
    result_file := none }

/-- Witness for `quick_update_frame` on the demo database. -/
theorem quick_update_frame_witness :
    demoDb2.prs.find? (fun x => decide (x.github_id = demoClosedPr.id)) = some demoWeekPr
    ∧ demoClosedPr.state = "closed"
    ∧ truthyId demoWeekPr.week_id = true
    ∧ (parse_pr_title demoClosedPr.title).isSome = true
    ∧ ∃ r2, (sync_pull_request demoClosedPr demoDb2 true 0).1 = some r2
        ∧ QuickUpdateSets demoClosedPr 0 r2
        ∧ QuickUpdateFrame demoWeekPr r2 := by
  refine ⟨by decide, rfl, by decide, by decide, ?_⟩
  obtain ⟨r2, hmain, hsets, hframe, _⟩ :=
    quick_update_frame demoClosedPr demoDb2 0 demoWeekPr (by decide) rfl
      (by decide) (by decide)
  exact ⟨r2, by rw [hmain], hsets, hframe⟩

/-- C7: a record whose title matches neither the primary nor the fallback
grammar is excluded from sync entirely: `sync_pull_request` returns no
persisted row and leaves the database untouched (no PullRequest row is
created or modified), and the sync loop counts the record as skipped
instead of raising an error. -/
theorem ineligible_record_skipped (pr : GHPullRequest) (db : Db)
    (skip : Bool) (now : Int) (h : parse_pr_title pr.title = none) :
    sync_pull_request pr db skip now = (none, db)
    ∧ sync_batch [pr] db now = (⟨0, 1⟩, db) := by
  have hgen : ∀ sk : Bool, sync_pull_request pr db sk now = (none, db) := by
    intro sk
    unfold sync_pull_request should_process_pr
    rw [h]
    simp
  refine ⟨hgen skip, ?_⟩
  unfold sync_batch
  simp only [List.foldl_cons, List.foldl_nil]
  unfold sync_batch_step
  rw [hgen false]

/-- A record whose title matches neither grammar. -/
def demoBadPr : GHPullRequest :=
  { demoClosedPr with
      id := 555
      number := 9
      title := "readme update"
      state := "open"
      merged := false }

/-- Witness for `ineligible_record_skipped`: a record titled
`readme update` is skipped and counted, and the database is unchanged. -/
theorem ineligible_record_skipped_witness :
    parse_pr_title "readme update" = none
    ∧ sync_pull_request demoBadPr demoDb false 0 = (none, demoDb)
    ∧ sync_batch [demoBadPr] demoDb 0 = (⟨0, 1⟩, demoDb) :=
  ⟨by decide,
    (ineligible_record_skipped demoBadPr demoDb false 0 (by decide)).1,
    (ineligible_record_skipped demoBadPr demoDb false 0 (by decide)).2⟩

end TauDashboard
